import Mathlib

/-!
Verification of the OpenSandbox server core (Kubernetes workload providers,
egress composer, template manager and request validators) against its
natural-language specification.

The Python sources are shallowly embedded: JSON-like dictionaries become the
inductive `JVal` (insertion-ordered association lists for objects, mirroring
Python `dict` semantics), pure functions become Lean functions, in-place
mutation of a dictionary becomes explicit value passing, and raised
`HTTPException`s become `Except` error values.
-/

set_option maxHeartbeats 1600000
set_option maxRecDepth 8000

namespace OpenSandbox

/-- JSON-like value, the embedding of the Python dict/list/scalar universe
used by the Kubernetes manifest builders. Objects are insertion-ordered
association lists, exactly like Python dictionaries. -/
inductive JVal where
  | jnull : JVal
  | jbool : Bool → JVal
  | jnat : Nat → JVal
  | jstr : String → JVal
  | jarr : List JVal → JVal
  | jobj : List (String × JVal) → JVal

namespace JVal

/-- Lookup `d[k]` on an insertion-ordered dictionary (first occurrence). -/
def dictGet (d : List (String × JVal)) (k : String) : Option JVal :=
  match d with
  | [] => none
  | (k', v) :: rest => if k' = k then some v else dictGet rest k

/-- Assignment `d[k] = v` on an insertion-ordered dictionary: update the
existing entry in place, or append a new entry at the end (Python dict
semantics). -/
def dictSet (d : List (String × JVal)) (k : String) (v : JVal) : List (String × JVal) :=
  match d with
  | [] => [(k, v)]
  | (k', v') :: rest =>
      if k' = k then (k', v) :: rest else (k', v') :: dictSet rest k v

/-- Chained lookup `m[k1][k2]...` through nested objects. -/
def getPath : JVal → List String → Option JVal
  | v, [] => some v
  | jobj d, k :: rest =>
      match dictGet d k with
      | some v => getPath v rest
      | none => none
  | _, _ :: _ => none

mutual

/-- Boolean structural equality on `JVal`, the embedding of Python `==`
on parsed JSON values (used for dictionary keys in `_merge_sysctls` and
for the by-name union merges). -/
def beq : JVal → JVal → Bool
  | .jnull, .jnull => true
  | .jbool a, .jbool b => a == b
  | .jnat a, .jnat b => a == b
  | .jstr a, .jstr b => a == b
  | .jarr xs, .jarr ys => beqItems xs ys
  | .jobj xs, .jobj ys => beqFields xs ys
  | _, _ => false

/-- Elementwise equality of JSON arrays. -/
def beqItems : List JVal → List JVal → Bool
  | [], [] => true
  | x :: xs, y :: ys => beq x y && beqItems xs ys
  | _, _ => false

/-- Memberwise equality of JSON objects (order-sensitive, like comparing
two insertion-ordered dict literals built the same way). -/
def beqFields : List (String × JVal) → List (String × JVal) → Bool
  | [], [] => true
  | (k, x) :: xs, (k', y) :: ys => k == k' && beq x y && beqFields xs ys
  | _, _ => false

end

/-- Truthiness of a JSON value under Python semantics (`bool(x)` is false
for `None`, `False`, `0`, `""`, `[]` and `{}`). -/
def jFalsy : JVal → Bool
  | .jnull => true
  | .jbool b => !b
  | .jnat n => n == 0
  | .jstr s => s == ""
  | .jarr l => l.isEmpty
  | .jobj d => d.isEmpty

/-- View a value as an object field list (`{}` when it is not an object). -/
def asObj : JVal → List (String × JVal)
  | .jobj d => d
  | _ => []

end JVal

/-- Python exceptions that escape the embedded functions. -/
inductive PyError where
  | attributeError : PyError
  | typeError : PyError
deriving DecidableEq

/-! ## JSON rendering (`json.dumps` with default options), used to put the
network policy into the egress sidecar's environment variable. -/

/-- Hexadecimal digit for `n < 16` (lowercase, as produced by `json.dumps`). -/
def hexDigit (n : Nat) : Char :=
  if n < 10 then Char.ofNat (48 + n) else Char.ofNat (87 + n)

/-- Four-digit hexadecimal rendering of `n` (for `\uXXXX` escapes). -/
def toHex4 (n : Nat) : String :=
  String.mk [hexDigit (n / 4096 % 16), hexDigit (n / 256 % 16),
             hexDigit (n / 16 % 16), hexDigit (n % 16)]

/-- Escape one character of a JSON string the way `json.dumps` does with
its defaults (`ensure_ascii=True`). -/
def jsonEscapeChar (c : Char) : String :=
  if c = '"' then "\\\""
  else if c = '\\' then "\\\\"
  else if c = '\n' then "\\n"
  else if c = '\t' then "\\t"
  else if c = '\r' then "\\r"
  else if c = Char.ofNat 8 then "\\b"
  else if c = Char.ofNat 12 then "\\f"
  else if c.toNat < 32 then "\\u" ++ toHex4 c.toNat
  else if c.toNat < 127 then String.mk [c]
  else if c.toNat < 65536 then "\\u" ++ toHex4 c.toNat
  else
    let n := c.toNat - 65536
    "\\u" ++ toHex4 (55296 + n / 1024) ++ "\\u" ++ toHex4 (56320 + n % 1024)

/-- JSON string literal: double quotes around the escaped characters. -/
def jsonRenderString (s : String) : String :=
  "\"" ++ String.join (s.data.map jsonEscapeChar) ++ "\""

mutual

/-- Render a `JVal` the way `json.dumps` renders the corresponding Python
value with default separators (item separator comma-space, key separator
colon-space). -/
def jsonRender : JVal → String
  | .jnull => "null"
  | .jbool true => "true"
  | .jbool false => "false"
  | .jnat n => toString n
  | .jstr s => jsonRenderString s
  | .jarr xs => "[" ++ String.intercalate ", " (jsonRenderItems xs) ++ "]"
  | .jobj fields => "\x7b" ++ String.intercalate ", " (jsonRenderFields fields) ++ "\x7d"
  termination_by v => sizeOf v

/-- Rendered elements of a JSON array. -/
def jsonRenderItems : List JVal → List String
  | [] => []
  | x :: xs => jsonRender x :: jsonRenderItems xs
  termination_by xs => sizeOf xs

/-- Rendered `key: value` members of a JSON object. -/
def jsonRenderFields : List (String × JVal) → List String
  | [] => []
  | (k, v) :: rest => (jsonRenderString k ++ ": " ++ jsonRender v) :: jsonRenderFields rest
  termination_by l => sizeOf l

end

/-! ## `shlex.quote` (Python standard library), used by the pool-mode
task-template builder to escape every entrypoint argument. -/

/-- Characters considered safe by `shlex.quote`: the complement of the
`_find_unsafe` regex character class (ASCII `\w`, i.e. `[a-zA-Z0-9_]`,
plus the characters `@ % + = : , . / -`). -/
def shlexSafeChar (c : Char) : Bool :=
  (c ≥ 'a' && c ≤ 'z') || (c ≥ 'A' && c ≤ 'Z') || (c ≥ '0' && c ≤ '9') ||
  c = '_' || c = '@' || c = '%' || c = '+' || c = '=' || c = ':' ||
  c = ',' || c = '.' || c = '/' || c = '-'

/-- Replace every occurrence of a single quote in `s` following
`s.replace("'", "'\"'\"'")`. -/
def shlexEscapeQuotes (cs : List Char) : List Char :=
  match cs with
  | [] => []
  | c :: rest =>
      if c = '\'' then '\'' :: '"' :: '\'' :: '"' :: '\'' :: shlexEscapeQuotes rest
      else c :: shlexEscapeQuotes rest

/-- Embedding of Python `shlex.quote`: return `s` unchanged when every
character is safe, `''` for the empty string, and otherwise wrap in single
quotes with embedded single quotes escaped as `'"'"'`. -/
def shlexQuote (s : String) : String :=
  if s = "" then "''"
  else if s.data.all shlexSafeChar then s
  else "'" ++ String.mk (shlexEscapeQuotes s.data) ++ "'"

/-! ## BatchSandboxProvider: pool-mode manifest construction
(`_build_task_template` and `_create_workload_from_pool`). -/

/-- Serialize an env mapping to the Kubernetes `EnvVar` list
`[{"name": k, "value": v}]`, in mapping order
(`[{"name": k, "value": v} for k, v in env.items()] if env else []`). -/
def envToList (env : List (String × String)) : List JVal :=
  env.map fun kv => JVal.jobj [("name", JVal.jstr kv.1), ("value", JVal.jstr kv.2)]

/-- Embedding of `BatchSandboxProvider._build_task_template`: wrap the
shell-escaped entrypoint into a backgrounded `bootstrap.sh` invocation. -/
def buildTaskTemplate (entrypoint : List String) (env : List (String × String)) : JVal :=
  let escaped := String.intercalate " " (entrypoint.map shlexQuote)
  let userProcessCmd := "/opt/opensandbox/bin/bootstrap.sh " ++ escaped ++ " &"
  JVal.jobj [("spec", JVal.jobj [("process", JVal.jobj [
    ("command", JVal.jarr [JVal.jstr "/bin/sh", JVal.jstr "-c", JVal.jstr userProcessCmd]),
    ("env", JVal.jarr (envToList env))])])]

/-- Embedding of the manifest literal built by
`BatchSandboxProvider._create_workload_from_pool` (the body sent to the
custom-objects API). `expiresAtIso` stands for `expires_at.isoformat()`. -/
def createWorkloadFromPoolManifest (batchsandboxName namespc : String)
    (labels : List (String × String)) (poolRef : String) (expiresAtIso : String)
    (entrypoint : List String) (env : List (String × String)) : JVal :=
  JVal.jobj [
    ("apiVersion", JVal.jstr "sandbox.opensandbox.io/v1alpha1"),
    ("kind", JVal.jstr "BatchSandbox"),
    ("metadata", JVal.jobj [
      ("name", JVal.jstr batchsandboxName),
      ("namespace", JVal.jstr namespc),
      ("labels", JVal.jobj (labels.map fun kv => (kv.1, JVal.jstr kv.2)))]),
    ("spec", JVal.jobj [
      ("replicas", JVal.jnat 1),
      ("poolRef", JVal.jstr poolRef),
      ("expireTime", JVal.jstr expiresAtIso),
      ("taskTemplate", buildTaskTemplate entrypoint env)])]

/-! ## Egress composer (`egress_helper.py`).

The `NetworkPolicy` request type lives in `src/api/schema.py`, which is not
part of the sources at hand; its shape and JSON serialization are modelled
from the spec. -/

/-- Modelled from the spec: one egress rule of a network policy,
`{action ∈ {allow, deny}, target: FQDN or wildcard subdomain}`
(`src/api/schema.py` is not among the sources). -/
structure NetworkRule where
  action : String
  target : String

/-- Modelled from the spec: a network policy with optional `defaultAction`
and an ordered rule list (`src/api/schema.py` is not among the sources). -/
structure NetworkPolicy where
  defaultAction : Option String := none
  egress : Option (List NetworkRule) := none

/-- Modelled from the spec: the dictionary produced by
`network_policy.model_dump(by_alias=True, exclude_none=True)` — stable
field names `defaultAction`, `egress[].action`, `egress[].target`, with
absent (None) fields omitted. -/
def networkPolicyDump (p : NetworkPolicy) : JVal :=
  JVal.jobj (
    (match p.defaultAction with
     | some a => [("defaultAction", JVal.jstr a)]
     | none => []) ++
    (match p.egress with
     | some rules =>
         [("egress", JVal.jarr (rules.map fun r =>
            JVal.jobj [("action", JVal.jstr r.action), ("target", JVal.jstr r.target)]))]
     | none => []))

/-- JSON payload put into the sidecar's environment variable:
`json.dumps(network_policy.model_dump(by_alias=True, exclude_none=True))`. -/
def serializeNetworkPolicy (p : NetworkPolicy) : String :=
  jsonRender (networkPolicyDump p)

/-- Name of the environment variable carrying the policy
(`EGRESS_RULES_ENV` in `egress_helper.py`). -/
def egressRulesEnvName : String := "OPENSANDBOX_EGRESS_RULES"

/-- Embedding of `_build_security_context_for_egress`: the sidecar adds
the `NET_ADMIN` capability. -/
def buildSecurityContextForEgress : JVal :=
  JVal.jobj [("capabilities", JVal.jobj [("add", JVal.jarr [JVal.jstr "NET_ADMIN"])])]

/-- Embedding of `build_egress_sidecar_container`. -/
def buildEgressSidecarContainer (egressImage : String) (p : NetworkPolicy) : JVal :=
  JVal.jobj [
    ("name", JVal.jstr "egress"),
    ("image", JVal.jstr egressImage),
    ("env", JVal.jarr [JVal.jobj [
      ("name", JVal.jstr egressRulesEnvName),
      ("value", JVal.jstr (serializeNetworkPolicy p))]]),
    ("securityContext", buildSecurityContextForEgress)]

/-- Embedding of `build_security_context_for_sandbox_container`: the dict
of the main container's security context (empty when no network policy). -/
def buildSecurityContextForSandboxContainer (hasNetworkPolicy : Bool) :
    List (String × JVal) :=
  if hasNetworkPolicy then
    [("capabilities", JVal.jobj [("drop", JVal.jarr [JVal.jstr "NET_ADMIN"])])]
  else []

/-- Embedding of `build_ipv6_disable_sysctls`. -/
def buildIpv6DisableSysctls : List JVal :=
  [JVal.jobj [("name", JVal.jstr "net.ipv6.conf.all.disable_ipv6"), ("value", JVal.jstr "1")],
   JVal.jobj [("name", JVal.jstr "net.ipv6.conf.default.disable_ipv6"), ("value", JVal.jstr "1")],
   JVal.jobj [("name", JVal.jstr "net.ipv6.conf.lo.disable_ipv6"), ("value", JVal.jstr "1")]]

/-- Lookup in an association list whose keys are JSON values compared with
Python `==` (the `sysctls_dict` of `_merge_sysctls`). -/
def assocGetJ (d : List (JVal × JVal)) (k : JVal) : Option JVal :=
  match d with
  | [] => none
  | (k', v) :: rest => if JVal.beq k' k then some v else assocGetJ rest k

/-- Insert-or-update in a JSON-keyed association list, keeping the
position of an existing key (Python dict assignment). -/
def assocSetJ (d : List (JVal × JVal)) (k v : JVal) : List (JVal × JVal) :=
  match d with
  | [] => [(k, v)]
  | (k', v') :: rest =>
      if JVal.beq k' k then (k', v) :: rest else (k', v') :: assocSetJ rest k v

/-- One iteration of the `_merge_sysctls` loops: record a sysctl entry in
the deduplicating dictionary when it is a dict carrying a `name`. -/
def sysctlEntryAdd (d : List (JVal × JVal)) (e : JVal) : List (JVal × JVal) :=
  match e with
  | JVal.jobj fields =>
      match JVal.dictGet fields "name" with
      | some n => assocSetJ d n ((JVal.dictGet fields "value").getD (JVal.jstr ""))
      | none => d
  | _ => d

/-- Embedding of `_merge_sysctls`: new sysctls are merged into existing
ones by name, last write wins. -/
def mergeSysctls (existingSysctls : Option (List JVal)) (newSysctls : List JVal) :
    List JVal :=
  match existingSysctls with
  | none => newSysctls
  | some [] => newSysctls
  | some es =>
      let d := (es ++ newSysctls).foldl sysctlEntryAdd []
      d.map fun kv => JVal.jobj [("name", kv.1), ("value", kv.2)]

/-- The value a sysctl entry contributes for the name `n`: its `value`
(default `""`) when the entry is a dict whose `name` equals `n`. -/
def sysctlEntryValueFor (n : String) (e : JVal) : Option JVal :=
  match e with
  | JVal.jobj fields =>
      match JVal.dictGet fields "name" with
      | some m =>
          if JVal.beq m (JVal.jstr n) then
            some ((JVal.dictGet fields "value").getD (JVal.jstr ""))
          else none
      | none => none
  | _ => none

/-- The value the *last* entry named `n` carries in a sysctls list
(Python-dict "last write wins" semantics). -/
def lastSysctlValue (entries : List JVal) (n : String) : Option JVal :=
  entries.foldl
    (fun acc e =>
      match sysctlEntryValueFor n e with
      | some v => some v
      | none => acc)
    none

/-- The value of the *first* entry named `n` in a sysctls list (the
merged output carries each name at most once, so this is the value for
`n`). -/
def sysctlValueIn (entries : List JVal) (n : String) : Option JVal :=
  match entries with
  | [] => none
  | e :: rest =>
      match sysctlEntryValueFor n e with
      | some v => some v
      | none => sysctlValueIn rest n

/-- Embedding of `apply_egress_to_spec`. The Python function mutates
`pod_spec` and `containers` in place (the two alias each other inside
`create_workload`); here the updated pod spec and containers list are
returned. A `securityContext` value that is present but not a dict makes
the Python code raise (`.get` on a non-dict), embedded as `PyError`. -/
def applyEgressToSpec (podSpec : JVal) (containers : List JVal)
    (networkPolicy : Option NetworkPolicy) (egressImage : Option String) :
    Except PyError (JVal × List JVal) :=
  match networkPolicy, egressImage with
  | some p, some im =>
      if im = "" then Except.ok (podSpec, containers)
      else
        let containers' := containers ++ [buildEgressSidecarContainer im p]
        match podSpec with
        | JVal.jobj ps =>
            match JVal.dictGet ps "securityContext" with
            | none =>
                -- "securityContext" absent: created as {}, sysctls start empty
                let sc := JVal.dictSet [] "sysctls"
                  (JVal.jarr (mergeSysctls none buildIpv6DisableSysctls))
                Except.ok (JVal.jobj (JVal.dictSet ps "securityContext" (JVal.jobj sc)),
                           containers')
            | some (JVal.jobj sc) =>
                -- existing securityContext: read "sysctls" (absent or None
                -- behaves like an empty list; a Kubernetes pod spec never
                -- holds a non-list there)
                let existing : Option (List JVal) :=
                  match JVal.dictGet sc "sysctls" with
                  | some (JVal.jarr l) => some l
                  | _ => none
                let sc' := JVal.dictSet sc "sysctls"
                  (JVal.jarr (mergeSysctls existing buildIpv6DisableSysctls))
                Except.ok (JVal.jobj (JVal.dictSet ps "securityContext" (JVal.jobj sc')),
                           containers')
            | some _ => Except.error PyError.attributeError
        | _ => Except.error PyError.typeError
  | _, _ => Except.ok (podSpec, containers)

/-! ## Template manager (`batchsandbox_template.py`). -/

/-- No key occurs twice in an object's field list (always true of a
dictionary that came from Python, whose dicts cannot repeat keys). -/
def noDupKeys : List (String × JVal) → Bool
  | [] => true
  | (k, _) :: rest => !(rest.any fun kv => kv.1 == k) && noDupKeys rest

mutual

/-- Well-formedness of a parsed JSON value as a Python object: every
nested object has pairwise-distinct keys. -/
def jvalWF : JVal → Bool
  | .jobj fields => noDupKeys fields && jvalWFFields fields
  | .jarr items => jvalWFItems items
  | _ => true

/-- Well-formedness of every element of an array. -/
def jvalWFItems : List JVal → Bool
  | [] => true
  | x :: xs => jvalWF x && jvalWFItems xs

/-- Well-formedness of every value of an object. -/
def jvalWFFields : List (String × JVal) → Bool
  | [] => true
  | (_, v) :: rest => jvalWF v && jvalWFFields rest

end

/-- Embedding of `BatchSandboxTemplateManager._deep_merge`. Nested dicts
merge recursively, `None` values in the override never override, any other
override value (scalars, lists, type mismatches) replaces the base value.
`_deep_copy` is the identity in this pure setting. -/
def deepMerge (base override : List (String × JVal)) : List (String × JVal) :=
  match override with
  | [] => base
  | (_, JVal.jnull) :: rest =>
      -- a None override value never overrides
      deepMerge base rest
  | (k, JVal.jobj vd) :: rest =>
      (match JVal.dictGet base k with
       | some (JVal.jobj bd) =>
           -- both sides are dicts: recursive merge
           deepMerge (JVal.dictSet base k (JVal.jobj (deepMerge bd vd))) rest
       | _ =>
           -- new key, or the base value is not a dict: replace
           deepMerge (JVal.dictSet base k (JVal.jobj vd)) rest)
  | (k, v) :: rest =>
      -- primitives and lists replace the base value
      deepMerge (JVal.dictSet base k v) rest
  termination_by sizeOf override
  decreasing_by all_goals (simp_wf <;> omega)

/-- Embedding of `BatchSandboxTemplateManager.get_base_template`: a deep
copy of the loaded template, or `{}` when none (or an empty one) is
loaded. Deep copying is the identity here. -/
def getBaseTemplate (template : Option (List (String × JVal))) : List (String × JVal) :=
  match template with
  | some d => d
  | none => []

/-- Embedding of `BatchSandboxTemplateManager.merge_with_runtime_values`:
with no (or an empty) base template the runtime manifest is returned
as-is, otherwise the runtime manifest is deep-merged onto the base. -/
def mergeWithRuntimeValues (template : Option (List (String × JVal)))
    (runtimeManifest : List (String × JVal)) : List (String × JVal) :=
  match getBaseTemplate template with
  | [] => runtimeManifest
  | base => deepMerge base runtimeManifest

/-! ## Template-mode workload creation
(`BatchSandboxProvider.create_workload` and its helpers). The
`V1Container` objects built in Python are embedded directly as the
dictionaries `_container_to_dict` turns them into, since that is the form
that enters the manifest. -/

/-- Embedding of `_build_execd_init_container` composed with
`_container_to_dict` (the init container has no env, resources or
security context, so those keys are omitted). -/
def buildExecdInitContainerDict (execdImage : String) : JVal :=
  let script :=
    "cp ./execd /opt/opensandbox/bin/execd && " ++
    "cp ./bootstrap.sh /opt/opensandbox/bin/bootstrap.sh && " ++
    "chmod +x /opt/opensandbox/bin/execd && " ++
    "chmod +x /opt/opensandbox/bin/bootstrap.sh"
  JVal.jobj [
    ("name", JVal.jstr "execd-installer"),
    ("image", JVal.jstr execdImage),
    ("command", JVal.jarr [JVal.jstr "/bin/sh", JVal.jstr "-c"]),
    ("args", JVal.jarr [JVal.jstr script]),
    ("volumeMounts", JVal.jarr [JVal.jobj [
      ("name", JVal.jstr "opensandbox-bin"),
      ("mountPath", JVal.jstr "/opt/opensandbox/bin")]])]

/-- Embedding of `_build_main_container` composed with
`_container_to_dict`: the user entrypoint is wrapped with `bootstrap.sh`,
the `EXECD` env var is appended, requests are set equal to limits, and
the security context (capability drop) appears exactly when a network
policy is attached. -/
def buildMainContainerDict (imageUri : String) (entrypoint : List String)
    (env : List (String × String)) (resourceLimits : List (String × String))
    (hasNetworkPolicy : Bool) : JVal :=
  let envVars := envToList env ++
    [JVal.jobj [("name", JVal.jstr "EXECD"), ("value", JVal.jstr "/opt/opensandbox/bin/execd")]]
  let limitsObj := JVal.jobj (resourceLimits.map fun kv => (kv.1, JVal.jstr kv.2))
  JVal.jobj (
    [("name", JVal.jstr "sandbox"),
     ("image", JVal.jstr imageUri),
     ("command", JVal.jarr (JVal.jstr "/opt/opensandbox/bin/bootstrap.sh" :: entrypoint.map JVal.jstr)),
     ("env", JVal.jarr envVars)] ++
    (match resourceLimits with
     | [] => []
     | _ => [("resources", JVal.jobj [("limits", limitsObj), ("requests", limitsObj)])]) ++
    [("volumeMounts", JVal.jarr [JVal.jobj [
      ("name", JVal.jstr "opensandbox-bin"),
      ("mountPath", JVal.jstr "/opt/opensandbox/bin")]])] ++
    (match buildSecurityContextForSandboxContainer hasNetworkPolicy with
     | [] => []
     | sc => [("securityContext", JVal.jobj sc)]))

/-- Membership of a JSON value in a list under Python `==`
(the `in`-a-set tests of `_merge_pod_spec_extras`). -/
def jvalMem (x : JVal) (l : List JVal) : Bool :=
  l.any fun y => JVal.beq y x

/-- The names of the dict entries of a volumes / volumeMounts list
(`{v.get("name") for v in volumes if isinstance(v, dict)}`; a dict entry
without a name contributes Python `None`). -/
def entryNames (l : List JVal) : List JVal :=
  l.filterMap fun v =>
    match v with
    | JVal.jobj d => some ((JVal.dictGet d "name").getD JVal.jnull)
    | _ => none

/-- The union-by-name loop of `_merge_pod_spec_extras`: append each extra
dict entry whose (truthy) name is not already present. -/
def unionByName (existing extras : List JVal) : List JVal :=
  (extras.foldl (fun acc vol =>
    match vol with
    | JVal.jobj d =>
        let name := (JVal.dictGet d "name").getD JVal.jnull
        if JVal.jFalsy name || jvalMem name acc.2 then acc
        else (acc.1 ++ [vol], acc.2 ++ [name])
    | _ => acc) (existing, entryNames existing)).1

/-- Embedding of `_extract_template_pod_extras`: read the extra volumes
and the sandbox (or first) container's volumeMounts out of the base
template. Missing or non-list fields yield empty lists. -/
def extractTemplatePodExtras (template : JVal) : List JVal × List JVal :=
  let spec := (JVal.dictGet (JVal.asObj template) "spec").getD (JVal.jobj [])
  let templateSpec :=
    (JVal.dictGet (JVal.asObj ((JVal.dictGet (JVal.asObj spec) "template").getD (JVal.jobj [])))
      "spec").getD (JVal.jobj [])
  let extraVolumes :=
    match JVal.dictGet (JVal.asObj templateSpec) "volumes" with
    | some (JVal.jarr l) => l
    | _ => []
  let containers :=
    match JVal.dictGet (JVal.asObj templateSpec) "containers" with
    | some (JVal.jarr l) => l
    | _ => []
  let target : Option JVal :=
    match containers.find? (fun c =>
      match JVal.dictGet (JVal.asObj c) "name" with
      | some (JVal.jstr s) => s = "sandbox"
      | _ => false) with
    | some c => some c
    | none => containers.head?
  let extraMounts :=
    match target with
    | some t =>
        match JVal.dictGet (JVal.asObj t) "volumeMounts" with
        | some (JVal.jarr l) => l
        | _ => []
    | none => []
  (extraVolumes, extraMounts)

/-- Embedding of `_merge_pod_spec_extras`: union-merge the template's
extra volumes into `spec.template.spec.volumes` and its extra mounts into
the first container's `volumeMounts`, never overwriting runtime entries.
Absent paths leave the manifest unchanged (the `KeyError` early return). -/
def mergePodSpecExtras (batchsandbox : JVal)
    (extraVolumes extraMounts : List JVal) : JVal :=
  match batchsandbox with
  | JVal.jobj top =>
      match JVal.dictGet top "spec" with
      | some (JVal.jobj sp) =>
          match JVal.dictGet sp "template" with
          | some (JVal.jobj tpl) =>
              match JVal.dictGet tpl "spec" with
              | some (JVal.jobj podSpec) =>
                  -- merge volumes (only when the runtime value is a list
                  -- and there are extras)
                  let podSpec₁ :=
                    match extraVolumes with
                    | [] => podSpec
                    | _ =>
                        match JVal.dictGet podSpec "volumes" with
                        | some (JVal.jarr vols) =>
                            JVal.dictSet podSpec "volumes"
                              (JVal.jarr (unionByName vols extraVolumes))
                        | none =>
                            JVal.dictSet podSpec "volumes"
                              (JVal.jarr (unionByName [] extraVolumes))
                        | some JVal.jnull =>
                            JVal.dictSet podSpec "volumes"
                              (JVal.jarr (unionByName [] extraVolumes))
                        | some _ => podSpec
                  -- merge volumeMounts into the main container (index 0)
                  let podSpec₂ :=
                    match JVal.dictGet podSpec₁ "containers" with
                    | some (JVal.jarr (c₀ :: cs)) =>
                        let c₀' :=
                          match c₀, extraMounts with
                          | _, [] => c₀
                          | JVal.jobj cd, _ =>
                              (match JVal.dictGet cd "volumeMounts" with
                               | some (JVal.jarr ms) =>
                                   JVal.jobj (JVal.dictSet cd "volumeMounts"
                                     (JVal.jarr (unionByName ms extraMounts)))
                               | none =>
                                   JVal.jobj (JVal.dictSet cd "volumeMounts"
                                     (JVal.jarr (unionByName [] extraMounts)))
                               | some JVal.jnull =>
                                   JVal.jobj (JVal.dictSet cd "volumeMounts"
                                     (JVal.jarr (unionByName [] extraMounts)))
                               | some _ => c₀)
                          | _, _ => c₀
                        JVal.dictSet podSpec₁ "containers" (JVal.jarr (c₀' :: cs))
                    | _ => podSpec₁
                  let tpl' := JVal.dictSet tpl "spec" (JVal.jobj podSpec₂)
                  let sp' := JVal.dictSet sp "template" (JVal.jobj tpl')
                  JVal.jobj (JVal.dictSet top "spec" (JVal.jobj sp'))
              | _ => batchsandbox
          | _ => batchsandbox
      | _ => batchsandbox
  | _ => batchsandbox

/-- Embedding of the template-mode branch of
`BatchSandboxProvider.create_workload`: build the pod spec with the execd
init container and the wrapped main container, apply the egress sidecar,
merge with the base template and with the template's pod-spec extras. -/
def createWorkloadTemplateManifest (template : Option (List (String × JVal)))
    (sandboxId namespc imageUri : String) (entrypoint : List String)
    (env resourceLimits labels : List (String × String)) (expiresAtIso execdImage : String)
    (networkPolicy : Option NetworkPolicy) (egressImage : Option String) :
    Except PyError JVal :=
  let extras := extractTemplatePodExtras (JVal.jobj (getBaseTemplate template))
  let initContainer := buildExecdInitContainerDict execdImage
  let mainContainer :=
    buildMainContainerDict imageUri entrypoint env resourceLimits networkPolicy.isSome
  let containers := [mainContainer]
  let podSpec := JVal.jobj [
    ("initContainers", JVal.jarr [initContainer]),
    ("containers", JVal.jarr containers),
    ("volumes", JVal.jarr [JVal.jobj [("name", JVal.jstr "opensandbox-bin"),
                                      ("emptyDir", JVal.jobj [])]])]
  match applyEgressToSpec podSpec containers networkPolicy egressImage with
  | Except.error e => Except.error e
  | Except.ok (podSpec₀, containers') =>
      -- `containers` aliases `pod_spec["containers"]` in the Python code;
      -- the sidecar appended to one is visible through the other
      let podSpec' := JVal.jobj (JVal.dictSet (JVal.asObj podSpec₀) "containers"
        (JVal.jarr containers'))
      let runtimeManifest : List (String × JVal) := [
        ("apiVersion", JVal.jstr "sandbox.opensandbox.io/v1alpha1"),
        ("kind", JVal.jstr "BatchSandbox"),
        ("metadata", JVal.jobj [
          ("name", JVal.jstr sandboxId),
          ("namespace", JVal.jstr namespc),
          ("labels", JVal.jobj (labels.map fun kv => (kv.1, JVal.jstr kv.2)))]),
        ("spec", JVal.jobj [
          ("replicas", JVal.jnat 1),
          ("expireTime", JVal.jstr expiresAtIso),
          ("template", JVal.jobj [("spec", podSpec')])])]
      let batchsandbox := JVal.jobj (mergeWithRuntimeValues template runtimeManifest)
      Except.ok (mergePodSpecExtras batchsandbox extras.1 extras.2)

/-- Embedding of `BatchSandboxProvider.create_workload` (manifest
construction): pool mode when `extensions` carries a truthy `poolRef`,
template mode otherwise. -/
def createWorkloadManifest (template : Option (List (String × JVal)))
    (sandboxId namespc imageUri : String) (entrypoint : List String)
    (env resourceLimits labels : List (String × String)) (expiresAtIso execdImage : String)
    (extensions : Option (List (String × String)))
    (networkPolicy : Option NetworkPolicy) (egressImage : Option String) :
    Except PyError JVal :=
  let exts := extensions.getD []
  match exts.lookup "poolRef" with
  | some p =>
      if p = "" then
        createWorkloadTemplateManifest template sandboxId namespc imageUri entrypoint
          env resourceLimits labels expiresAtIso execdImage networkPolicy egressImage
      else
        Except.ok (createWorkloadFromPoolManifest sandboxId namespc labels p
          expiresAtIso entrypoint env)
  | none =>
      createWorkloadTemplateManifest template sandboxId namespc imageUri entrypoint
        env resourceLimits labels expiresAtIso execdImage networkPolicy egressImage

/-! ## Validators (`validators.py`). Raised `HTTPException`s become
`Except` errors carrying the structured error code. -/

/-- Structured error codes from `SandboxErrorCodes` used by the embedded
validators. -/
inductive SandboxErrorCode where
  | INVALID_HOST_PATH : SandboxErrorCode
  | HOST_PATH_NOT_ALLOWED : SandboxErrorCode
  | INVALID_METADATA_LABEL : SandboxErrorCode
deriving DecidableEq

/-- Test whether `pat` is an initial segment of `l`. -/
def listStartsWith (pat l : List Char) : Bool :=
  match pat, l with
  | [], _ => true
  | _ :: _, [] => false
  | p :: ps, c :: cs => p == c && listStartsWith ps cs

/-- Substring occurrence (Python `pat in s`). -/
def containsSub (l pat : List Char) : Bool :=
  listStartsWith pat l ||
    match l with
    | [] => false
    | _ :: rest => containsSub rest pat

/-- Python `str.startswith`. -/
def strStartsWith (s pre : String) : Bool :=
  listStartsWith pre.data s.data

/-- Python `prefix.rstrip("/")`: drop every trailing slash. -/
def rstripSlashes (s : String) : String :=
  String.mk ((s.data.reverse.dropWhile fun c => c = '/').reverse)

/-- Embedding of `ensure_valid_host_path`: the path must be non-empty,
absolute, free of the substrings `/..` and `//`, without a trailing slash
(except the root), and — when an allowlist is passed — equal to a prefix
(minus trailing slashes) or an extension of `prefix + "/"`. -/
def ensureValidHostPath (path : String) (allowedPrefixes : Option (List String)) :
    Except SandboxErrorCode Unit :=
  if path = "" then Except.error SandboxErrorCode.INVALID_HOST_PATH
  else if !strStartsWith path "/" then Except.error SandboxErrorCode.INVALID_HOST_PATH
  else if containsSub path.data ['/', '.', '.'] || path = "/.." then
    Except.error SandboxErrorCode.INVALID_HOST_PATH
  else if containsSub path.data ['/', '/'] ||
          (path.data.length > 1 && path.data.getLast? == some '/') then
    Except.error SandboxErrorCode.INVALID_HOST_PATH
  else
    match allowedPrefixes with
    | none => Except.ok ()
    | some prefixes =>
        if prefixes.any (fun pre =>
            path = rstripSlashes pre ||
            strStartsWith path (rstripSlashes pre ++ "/")) then
          Except.ok ()
        else Except.error SandboxErrorCode.HOST_PATH_NOT_ALLOWED

/-! ### Label validation (`_is_valid_label_key`, `_is_valid_label_value`,
`ensure_metadata_labels`). The regexes are embedded as executable
character-list matchers; `re.match` with a `^...$` pattern also accepts a
single trailing newline, since Python's `$` matches just before a final
newline — `pyAnchoredMatch` reproduces that. -/

/-- ASCII alphanumeric (the class `[A-Za-z0-9]`). -/
def isAlnumChar (c : Char) : Bool :=
  (c ≥ 'a' && c ≤ 'z') || (c ≥ 'A' && c ≤ 'Z') || (c ≥ '0' && c ≤ '9')

/-- The middle class `[-A-Za-z0-9_.]` of the label-name regex. -/
def labelMidChar (c : Char) : Bool :=
  isAlnumChar c || c = '-' || c = '_' || c = '.'

/-- Full match of `[A-Za-z0-9]([-A-Za-z0-9_.]*[A-Za-z0-9])?`
(`LABEL_NAME_RE` without the anchors). -/
def labelNameCore (s : List Char) : Bool :=
  match s with
  | [] => false
  | c :: rest =>
      isAlnumChar c &&
      (match rest.getLast? with
       | none => true
       | some lc => isAlnumChar lc && rest.dropLast.all labelMidChar)

/-- Full match of `([A-Za-z0-9]([-A-Za-z0-9_.]*[A-Za-z0-9])?)?`
(`LABEL_VALUE_RE` without the anchors; the empty string is allowed). -/
def labelValueCore (s : List Char) : Bool :=
  s.isEmpty || labelNameCore s

/-- ASCII lowercase alphanumeric (the class `[a-z0-9]`). -/
def isLowerAlnum (c : Char) : Bool :=
  (c ≥ 'a' && c ≤ 'z') || (c ≥ '0' && c ≤ '9')

/-- Full match of one DNS label `[a-z0-9]([-a-z0-9]*[a-z0-9])?`. -/
def dnsLabelCore (s : List Char) : Bool :=
  match s with
  | [] => false
  | c :: rest =>
      isLowerAlnum c &&
      (match rest.getLast? with
       | none => true
       | some lc => isLowerAlnum lc && rest.dropLast.all fun x => isLowerAlnum x || x = '-')

/-- Split on a separator character (every fragment, Python
`str.split(sep)` semantics: never empty, empty fragments kept). -/
def splitOnChar (sep : Char) (s : List Char) : List (List Char) :=
  match s with
  | [] => [[]]
  | c :: rest =>
      let r := splitOnChar sep rest
      if c = sep then [] :: r
      else
        match r with
        | seg :: rest' => (c :: seg) :: rest'
        | [] => [[c]]

/-- Full match of `DNS_SUBDOMAIN_RE` without the anchors: a non-empty
dot-separated sequence of DNS labels. -/
def dnsSubdomainCore (s : List Char) : Bool :=
  (splitOnChar '.' s).all dnsLabelCore

/-- Embedding of Python `re.match` against a `^core$` pattern: `$` also
matches just before a trailing newline. -/
def pyAnchoredMatch (core : List Char → Bool) (s : List Char) : Bool :=
  core s ||
    match s.getLast? with
    | some c => c = '\n' && core s.dropLast
    | none => false

/-- Python `key.split("/", 1)` restricted to keys containing a slash:
the part before the first `/` and everything after it. -/
def splitOnceSlash (s : List Char) : Option (List Char × List Char) :=
  match s with
  | [] => none
  | c :: rest =>
      if c = '/' then some ([], rest)
      else
        match splitOnceSlash rest with
        | some (a, b) => some (c :: a, b)
        | none => none

/-- Embedding of `_is_valid_label_key`. The whole key must fit in 253
characters (the separate check on a slash-prefixed key's first part can
never fire once the whole key fits, so it adds nothing); a slashed key
needs a non-empty DNS-subdomain part before the slash; the name part is
at most 63 characters matching the label-name regex. -/
def isValidLabelKey (key : String) : Bool :=
  if key.data.length > 253 then false
  else
    match splitOnceSlash key.data with
    | some (pre, name) =>
        if pre.isEmpty || name.isEmpty then false
        else if !pyAnchoredMatch dnsSubdomainCore pre then false
        else name.length ≤ 63 && pyAnchoredMatch labelNameCore name
    | none => key.data.length ≤ 63 && pyAnchoredMatch labelNameCore key.data

/-- Embedding of `_is_valid_label_value`. -/
def isValidLabelValue (value : String) : Bool :=
  value.data.length ≤ 63 && pyAnchoredMatch labelValueCore value.data

/-- A Python object that may or may not be a string (the `isinstance`
checks of `ensure_metadata_labels`). -/
inductive PyObj where
  | pstr : String → PyObj
  | other : PyObj

/-- The per-entry loop of `ensure_metadata_labels`. -/
def checkMetadataPairs : List (PyObj × PyObj) → Except SandboxErrorCode Unit
  | [] => Except.ok ()
  | (k, v) :: rest =>
      match k, v with
      | PyObj.pstr ks, PyObj.pstr vs =>
          if !isValidLabelKey ks then Except.error SandboxErrorCode.INVALID_METADATA_LABEL
          else if !isValidLabelValue vs then Except.error SandboxErrorCode.INVALID_METADATA_LABEL
          else checkMetadataPairs rest
      | _, _ => Except.error SandboxErrorCode.INVALID_METADATA_LABEL

/-- Embedding of `ensure_metadata_labels`: a missing or empty mapping is
accepted outright, otherwise every key/value pair is validated in order. -/
def ensureMetadataLabels (metadata : Option (List (PyObj × PyObj))) :
    Except SandboxErrorCode Unit :=
  match metadata with
  | none => Except.ok ()
  | some [] => Except.ok ()
  | some m => checkMetadataPairs m

/-! ## `BatchSandboxProvider.get_status`, `get_expiration`,
`get_workload` and `WorkloadProvider.legacy_resource_name`. -/

/-- The fields `get_status` reads from a BatchSandbox, with the `.get`
defaults already applied (counts default to 0, the endpoints annotation
and creation timestamp to absent). -/
structure BatchSandboxWorkload where
  replicas : Int := 0
  ready : Int := 0
  allocated : Int := 0
  endpointsAnnotation : Option String := none
  creationTimestamp : Option String := none

/-- The dictionary returned by `get_status`. -/
structure StatusResult where
  state : String
  reason : String
  message : String
  lastTransitionAt : Option String
deriving DecidableEq

/-- Truthiness of the optional endpoints annotation (`endpoints_str` is
falsy when absent or empty). -/
def endpointsTruthy (w : BatchSandboxWorkload) : Bool :=
  match w.endpointsAnnotation with
  | some s => !(s == "")
  | none => false

/-- Embedding of `BatchSandboxProvider.get_status`. -/
def getStatus (w : BatchSandboxWorkload) : StatusResult :=
  if w.ready == 1 && endpointsTruthy w then
    { state := "Running", reason := "READY_WITH_IP",
      message := "Pod is ready with IP assigned (" ++ toString w.ready ++ "/" ++
        toString w.replicas ++ " ready)",
      lastTransitionAt := w.creationTimestamp }
  else if w.ready > 0 then
    { state := "Pending", reason := "POD_READY_NO_IP",
      message := "Pod is ready but waiting for IP assignment (" ++ toString w.ready ++ "/" ++
        toString w.replicas ++ " ready)",
      lastTransitionAt := w.creationTimestamp }
  else if w.allocated > 0 then
    { state := "Pending", reason := "POD_SCHEDULED",
      message := "Pod is scheduled but not ready (" ++ toString w.allocated ++ "/" ++
        toString w.replicas ++ " allocated, " ++ toString w.ready ++ " ready)",
      lastTransitionAt := w.creationTimestamp }
  else
    { state := "Pending", reason := "BATCHSANDBOX_PENDING",
      message := "BatchSandbox is pending allocation",
      lastTransitionAt := w.creationTimestamp }

/-- Embedding of `WorkloadProvider.legacy_resource_name`. -/
def legacyResourceName (sandboxId : String) : String :=
  if strStartsWith sandboxId "sandbox-" then sandboxId
  else "sandbox-" ++ sandboxId

/-- Outcome of one `get_namespaced_custom_object` call: the resource, an
`ApiException` with status 404, or an `ApiException` with another status
(which `get_workload` re-raises). -/
inductive ApiResult where
  | found : JVal → ApiResult
  | notFound : ApiResult
  | apiFailure : ApiResult

/-- Embedding of `BatchSandboxProvider.get_workload`: look the sandbox id
up, fall back to the legacy name only on a 404 and only when the legacy
name differs. Returns the list of names queried, in order, together with
the outcome (`Except.error` embeds a re-raised exception). -/
def getWorkloadTrace (api : String → ApiResult) (sandboxId : String) :
    List String × Except Unit (Option JVal) :=
  match api sandboxId with
  | ApiResult.found w => ([sandboxId], Except.ok (some w))
  | ApiResult.apiFailure => ([sandboxId], Except.error ())
  | ApiResult.notFound =>
      let legacy := legacyResourceName sandboxId
      if legacy = sandboxId then ([sandboxId], Except.ok none)
      else
        match api legacy with
        | ApiResult.found w => ([sandboxId, legacy], Except.ok (some w))
        | ApiResult.notFound => ([sandboxId, legacy], Except.ok none)
        | ApiResult.apiFailure => ([sandboxId, legacy], Except.error ())

/-- Python `s.replace('Z', '+00:00')`: every occurrence is replaced. -/
def replaceZ (s : String) : String :=
  String.mk (s.data.foldr
    (fun c acc => if c = 'Z' then '+' :: '0' :: '0' :: ':' :: '0' :: '0' :: acc else c :: acc)
    [])

/-- Common embedding of the two `get_expiration` implementations,
parameterized by the spec key read (`expireTime` for BatchSandbox,
`shutdownTime` for the agent Sandbox) and by `datetime.fromisoformat`
(`parseIso`, returning `none` where Python raises `ValueError`). A falsy
value yields `none`; a truthy non-string makes the Python code raise
`AttributeError` on `.replace`, which the surrounding `except` clauses do
not catch. -/
def getExpirationAtKey {α : Type} (key : String) (parseIso : String → Option α)
    (workload : JVal) : Except PyError (Option α) :=
  match workload with
  | JVal.jobj d =>
      match (JVal.dictGet d "spec").getD (JVal.jobj []) with
      | JVal.jobj sd =>
          match JVal.dictGet sd key with
          | none => Except.ok none
          | some v =>
              if JVal.jFalsy v then Except.ok none
              else
                match v with
                | JVal.jstr s => Except.ok (parseIso (replaceZ s))
                | _ => Except.error PyError.attributeError
      | _ => Except.error PyError.attributeError
  | _ => Except.error PyError.attributeError

/-- Embedding of `BatchSandboxProvider.get_expiration`. -/
def getExpiration {α : Type} (parseIso : String → Option α) (workload : JVal) :
    Except PyError (Option α) :=
  getExpirationAtKey "expireTime" parseIso workload

/-- Embedding of `AgentSandboxProvider.get_expiration`. -/
def agentGetExpiration {α : Type} (parseIso : String → Option α) (workload : JVal) :
    Except PyError (Option α) :=
  getExpirationAtKey "shutdownTime" parseIso workload

/-! ## Helper lemmas -/

namespace JVal

theorem dictGet_dictSet_self (d : List (String × JVal)) (k : String) (v : JVal) :
    dictGet (dictSet d k v) k = some v := by
  induction d with
  | nil => simp [dictGet, dictSet]
  | cons hd tl ih =>
      obtain ⟨k', v'⟩ := hd
      by_cases h : k' = k <;> simp [dictGet, dictSet, h, ih]

theorem dictGet_dictSet_ne (d : List (String × JVal)) (k k' : String) (v : JVal)
    (h : k ≠ k') : dictGet (dictSet d k v) k' = dictGet d k' := by
  induction d with
  | nil => simp [dictGet, dictSet, h]
  | cons hd tl ih =>
      obtain ⟨k₀, v₀⟩ := hd
      by_cases h₀ : k₀ = k
      · subst h₀
        simp [dictGet, dictSet, h]
      · simp only [dictSet, if_neg h₀]
        by_cases h₁ : k₀ = k' <;> simp [dictGet, h₁, ih]

end JVal

theorem listStartsWith_append_self (p r : List Char) :
    listStartsWith p (p ++ r) = true := by
  induction p with
  | nil => rfl
  | cons c cs ih => simp [listStartsWith, ih]

theorem splitOnChar_ne_nil (sep : Char) (l : List Char) : splitOnChar sep l ≠ [] := by
  cases l with
  | nil => simp [splitOnChar]
  | cons c rest =>
      simp only [splitOnChar]
      by_cases h : c = sep
      · simp [h]
      · simp only [if_neg h]
        cases splitOnChar sep rest <;> simp

theorem splitOnChar_head (sep : Char) (l : List Char) :
    ∃ t, splitOnChar sep l = (l.takeWhile fun c => !(c == sep)) :: t := by
  induction l with
  | nil => exact ⟨[], rfl⟩
  | cons c rest ih =>
      by_cases h : c = sep
      · subst h
        exact ⟨splitOnChar c rest, by simp [splitOnChar, List.takeWhile_cons]⟩
      · obtain ⟨t, ht⟩ := ih
        refine ⟨t, ?_⟩
        simp only [splitOnChar, if_neg h, ht, List.takeWhile_cons]
        simp [h]

theorem listStartsWith_takeWhile (sep : Char) (p l : List Char) (hp : ∀ c ∈ p, c ≠ sep) :
    listStartsWith p (l.takeWhile fun c => !(c == sep)) = listStartsWith p l := by
  induction p generalizing l with
  | nil => rfl
  | cons d ds ih =>
      cases l with
      | nil => rfl
      | cons c cs =>
          have hd : d ≠ sep := hp d (List.mem_cons_self d ds)
          by_cases hc : c = sep
          · subst hc
            have hdc : (d == c) = false := by
              simp only [beq_eq_false_iff_ne]
              exact hd
            simp [List.takeWhile_cons, listStartsWith, hd]
          · simp only [List.takeWhile_cons, beq_eq_false_iff_ne, hc]
            simp only [show (!(c == sep)) = true by simp [hc], if_pos]
            simp only [listStartsWith]
            rw [ih cs (fun x hx => hp x (List.mem_cons_of_mem d hx))]

theorem containsSub_sep_iff (sep : Char) (p l : List Char) (hp : ∀ c ∈ p, c ≠ sep) :
    containsSub l (sep :: p) = true ↔
      ∃ s ∈ (splitOnChar sep l).drop 1, listStartsWith p s = true := by
  induction l with
  | nil =>
      constructor
      · intro h
        simp [containsSub, listStartsWith] at h
      · rintro ⟨s, hs, -⟩
        simp [splitOnChar] at hs
  | cons c rest ih =>
      by_cases hc : c = sep
      · subst hc
        obtain ⟨t, ht⟩ := splitOnChar_head c rest
        have hdrop : (splitOnChar c (c :: rest)).drop 1 = splitOnChar c rest := by
          simp [splitOnChar]
        rw [hdrop]
        have hhead : listStartsWith p (rest.takeWhile fun x => !(x == c)) =
            listStartsWith p rest := listStartsWith_takeWhile c p rest hp
        constructor
        · intro h
          simp only [containsSub, listStartsWith, Bool.or_eq_true, Bool.and_eq_true,
            beq_self_eq_true, true_and] at h
          rcases h with h | h
          · exact ⟨rest.takeWhile fun x => !(x == c), by rw [ht]; exact List.mem_cons_self _ _,
              by rw [hhead]; exact h⟩
          · obtain ⟨s, hs, hstart⟩ := ih.mp h
            refine ⟨s, ?_, hstart⟩
            rw [ht]
            rw [ht] at hs
            exact List.mem_cons_of_mem _ hs
        · rintro ⟨s, hs, hstart⟩
          rw [ht] at hs
          rcases List.mem_cons.mp hs with hfirst | htail
          · subst hfirst
            rw [hhead] at hstart
            simp [containsSub, listStartsWith, hstart]
          · have hrest : containsSub rest (c :: p) = true := by
              apply ih.mpr
              exact ⟨s, by rw [ht]; exact htail, hstart⟩
            simp [containsSub, hrest]
      · obtain ⟨t, ht⟩ := splitOnChar_head sep rest
        have hsplit : splitOnChar sep (c :: rest) =
            (c :: rest.takeWhile fun x => !(x == sep)) :: t := by
          simp only [splitOnChar, if_neg hc, ht]
        have hsc : (sep == c) = false := by
          simp only [beq_eq_false_iff_ne]
          exact fun h => hc h.symm
        have hlhs : containsSub (c :: rest) (sep :: p) = containsSub rest (sep :: p) := by
          simp [containsSub, listStartsWith, hsc]
        rw [hlhs, hsplit]
        have hdrop2 : ((c :: rest.takeWhile fun x => !(x == sep)) :: t).drop 1 = t := rfl
        rw [hdrop2]
        rw [ih]
        rw [ht]
        simp

theorem ensureValidHostPath_struct_ok (path : String) (ap : Option (List String))
    (h1 : path ≠ "") (h2 : strStartsWith path "/" = true)
    (h3 : containsSub path.data ['/', '.', '.'] = false)
    (h4 : containsSub path.data ['/', '/'] = false)
    (h5 : ¬(1 < path.data.length ∧ path.data.getLast? = some '/')) :
    ensureValidHostPath path ap =
      (match ap with
       | none => Except.ok ()
       | some prefixes =>
           if (prefixes.any fun pre =>
               decide (path = rstripSlashes pre) ||
               strStartsWith path (rstripSlashes pre ++ "/")) = true then Except.ok ()
           else Except.error SandboxErrorCode.HOST_PATH_NOT_ALLOWED) := by
  have hne : decide (path = "/..") = false := by
    rw [decide_eq_false_iff_not]
    intro h
    rw [h] at h3
    exact absurd h3 (by decide)
  have h5b : (decide (path.data.length > 1) && path.data.getLast? == some '/') = false := by
    by_cases hl : path.data.length > 1
    · have hns : (path.data.getLast? == some '/') = false := by
        rw [beq_eq_false_iff_ne]
        exact fun hh => h5 ⟨hl, hh⟩
      rw [hns, Bool.and_false]
    · have hl' : decide (path.data.length > 1) = false := by
        rw [decide_eq_false_iff_not]
        exact hl
      rw [hl', Bool.false_and]
  have h2' : (!strStartsWith path "/") = false := by rw [h2]; rfl
  have hCond3 : (containsSub path.data ['/', '.', '.'] || decide (path = "/..")) = false := by
    rw [h3, hne]; rfl
  have hCond4 : (containsSub path.data ['/', '/'] ||
      decide (path.data.length > 1) && path.data.getLast? == some '/') = false := by
    rw [h4, h5b]; rfl
  unfold ensureValidHostPath
  rw [if_neg h1, h2', hCond3, hCond4]
  simp only [Bool.false_eq_true, if_false]

theorem containsSub_dotdot_of_segs (path : String)
    (hsegs : ∀ s ∈ splitOnChar '/' path.data, listStartsWith ['.', '.'] s = false) :
    containsSub path.data ['/', '.', '.'] = false := by
  by_contra hcs
  rw [Bool.not_eq_false] at hcs
  obtain ⟨s, hs, hstart⟩ :=
    (containsSub_sep_iff '/' ['.', '.'] path.data (by decide)).mp hcs
  have hmem : s ∈ splitOnChar '/' path.data := by
    rcases hsp : splitOnChar '/' path.data with _ | ⟨a, t⟩
    · exact absurd hsp (splitOnChar_ne_nil '/' path.data)
    · rw [hsp] at hs
      exact List.mem_cons_of_mem a hs
  rw [hsegs s hmem] at hstart
  cases hstart

theorem ensureValidHostPath_none_ok_iff (path : String) :
    ensureValidHostPath path none = Except.ok () ↔
      (path ≠ "" ∧ strStartsWith path "/" = true ∧
       containsSub path.data ['/', '/'] = false ∧
       ¬(1 < path.data.length ∧ path.data.getLast? = some '/') ∧
       ∀ s ∈ splitOnChar '/' path.data, listStartsWith ['.', '.'] s = false) := by
  have hdot : ∀ c ∈ ['.', '.'], c ≠ '/' := by decide
  constructor
  · intro h
    unfold ensureValidHostPath at h
    by_cases h1 : path = ""
    · rw [if_pos h1] at h
      cases h
    rw [if_neg h1] at h
    by_cases h2 : strStartsWith path "/" = true
    swap
    · rw [Bool.not_eq_true] at h2
      rw [h2] at h
      cases h
    rw [h2] at h
    simp only [Bool.not_true, Bool.false_eq_true, if_false] at h
    by_cases hC : (containsSub path.data ['/', '.', '.'] || decide (path = "/..")) = true
    · rw [if_pos hC] at h
      cases h
    rw [if_neg hC] at h
    rw [Bool.not_eq_true, Bool.or_eq_false_iff] at hC
    by_cases hD : (containsSub path.data ['/', '/'] ||
        decide (path.data.length > 1) && path.data.getLast? == some '/') = true
    · rw [if_pos hD] at h
      cases h
    rw [Bool.not_eq_true, Bool.or_eq_false_iff] at hD
    refine ⟨h1, h2, hD.1, ?_, ?_⟩
    · rintro ⟨hl, hlast⟩
      have hbool : (decide (path.data.length > 1) && path.data.getLast? == some '/') = true := by
        rw [Bool.and_eq_true, decide_eq_true_eq, beq_iff_eq]
        exact ⟨hl, hlast⟩
      rw [hbool] at hD
      cases hD.2
    · -- no segment starts with ".."
      obtain ⟨rest, hrest⟩ : ∃ rest, path.data = '/' :: rest := by
        unfold strStartsWith at h2
        cases hd : path.data with
        | nil => rw [hd] at h2; cases h2
        | cons c cs =>
            rw [hd] at h2
            simp only [show ("/" : String).data = ['/'] from rfl, listStartsWith,
              Bool.and_eq_true, beq_iff_eq] at h2
            exact ⟨cs, by rw [h2.1]⟩
      intro s hs
      rw [hrest] at hs
      have hsplit : splitOnChar '/' ('/' :: rest) = [] :: splitOnChar '/' rest := by
        simp [splitOnChar]
      rw [hsplit] at hs
      rcases List.mem_cons.mp hs with hfirst | htail
      · subst hfirst
        rfl
      · by_contra hne
        rw [Bool.not_eq_false] at hne
        have hcs : containsSub path.data ['/', '.', '.'] = true := by
          rw [containsSub_sep_iff '/' ['.', '.'] path.data hdot]
          refine ⟨s, ?_, hne⟩
          rw [hrest, hsplit]
          exact htail
        rw [hcs] at hC
        cases hC.1
  · rintro ⟨h1, h2, h4, h5, hsegs⟩
    rw [ensureValidHostPath_struct_ok path none h1 h2
      (containsSub_dotdot_of_segs path hsegs) h4 h5]

theorem ensureValidHostPath_none_ok_or (path : String) :
    ensureValidHostPath path none = Except.ok () ∨
    ensureValidHostPath path none = Except.error SandboxErrorCode.INVALID_HOST_PATH := by
  unfold ensureValidHostPath
  split_ifs <;> simp

theorem beq_jstr_right (v : JVal) (s : String) :
    JVal.beq v (JVal.jstr s) = true ↔ v = JVal.jstr s := by
  cases v <;> simp [JVal.beq]

theorem assocGetJ_assocSetJ_str (d : List (JVal × JVal)) (m v : JVal) (s : String) :
    assocGetJ (assocSetJ d m v) (JVal.jstr s) =
      if JVal.beq m (JVal.jstr s) then some v else assocGetJ d (JVal.jstr s) := by
  induction d with
  | nil => rfl
  | cons hd tl ih =>
      obtain ⟨k, w⟩ := hd
      by_cases hkm : JVal.beq k m = true
      · simp only [assocSetJ, hkm, if_pos]
        by_cases hks : JVal.beq k (JVal.jstr s) = true
        · have hk : k = JVal.jstr s := (beq_jstr_right k s).mp hks
          subst hk
          have hms : JVal.beq m (JVal.jstr s) = true := by
            have hmk : m = JVal.jstr s := by
              cases m <;> simp [JVal.beq] at hkm ⊢
              exact hkm.symm
            rw [hmk]
            simp [JVal.beq]
          simp [assocGetJ, hms, JVal.beq]
        · rw [Bool.not_eq_true] at hks
          have hms : JVal.beq m (JVal.jstr s) = false := by
            by_contra hcon
            rw [Bool.not_eq_false] at hcon
            have hm : m = JVal.jstr s := (beq_jstr_right m s).mp hcon
            rw [hm] at hkm
            rw [hkm] at hks
            cases hks
          simp [assocGetJ, hks, hms]
      · rw [Bool.not_eq_true] at hkm
        simp only [assocSetJ, hkm, Bool.false_eq_true, if_false]
        by_cases hks : JVal.beq k (JVal.jstr s) = true
        · have hk : k = JVal.jstr s := (beq_jstr_right k s).mp hks
          subst hk
          have hms : JVal.beq m (JVal.jstr s) = false := by
            by_contra hcon
            rw [Bool.not_eq_false] at hcon
            have hm : m = JVal.jstr s := (beq_jstr_right m s).mp hcon
            rw [hm] at hkm
            simp [JVal.beq] at hkm
          simp [assocGetJ, hms, JVal.beq]
        · rw [Bool.not_eq_true] at hks
          simp only [assocGetJ, hks, Bool.false_eq_true, if_false, ih]

theorem lastSysctlValue_foldl (n : String) (entries : List JVal) (acc : Option JVal) :
    entries.foldl
      (fun acc e =>
        match sysctlEntryValueFor n e with
        | some v => some v
        | none => acc)
      acc =
      match lastSysctlValue entries n with
      | some v => some v
      | none => acc := by
  induction entries generalizing acc with
  | nil => rfl
  | cons e rest ih =>
      have h0 : (e :: rest).foldl
          (fun acc e =>
            match sysctlEntryValueFor n e with
            | some v => some v
            | none => acc) acc =
          rest.foldl
            (fun acc e =>
              match sysctlEntryValueFor n e with
              | some v => some v
              | none => acc)
            (match sysctlEntryValueFor n e with
             | some v => some v
             | none => acc) := rfl
      have h1 : lastSysctlValue (e :: rest) n =
          rest.foldl
            (fun acc e =>
              match sysctlEntryValueFor n e with
              | some v => some v
              | none => acc)
            (match sysctlEntryValueFor n e with
             | some v => some v
             | none => none) := rfl
      rw [h0, ih, h1, ih]
      cases sysctlEntryValueFor n e <;> cases lastSysctlValue rest n <;> rfl

theorem lastSysctlValue_cons (n : String) (e : JVal) (rest : List JVal) :
    lastSysctlValue (e :: rest) n =
      match lastSysctlValue rest n with
      | some v => some v
      | none => sysctlEntryValueFor n e := by
  have h1 : lastSysctlValue (e :: rest) n =
      rest.foldl
        (fun acc e =>
          match sysctlEntryValueFor n e with
          | some v => some v
          | none => acc)
        (match sysctlEntryValueFor n e with
         | some v => some v
         | none => none) := rfl
  rw [h1, lastSysctlValue_foldl]
  cases sysctlEntryValueFor n e <;> cases lastSysctlValue rest n <;> rfl

theorem lastSysctlValue_append (n : String) (l₁ l₂ : List JVal) :
    lastSysctlValue (l₁ ++ l₂) n =
      match lastSysctlValue l₂ n with
      | some v => some v
      | none => lastSysctlValue l₁ n := by
  show List.foldl _ none (l₁ ++ l₂) = _
  rw [List.foldl_append]
  exact lastSysctlValue_foldl n l₂ (lastSysctlValue l₁ n)

theorem foldl_sysctlEntryAdd_lookup (n : String) (entries : List JVal)
    (d : List (JVal × JVal)) :
    assocGetJ (entries.foldl sysctlEntryAdd d) (JVal.jstr n) =
      match lastSysctlValue entries n with
      | some v => some v
      | none => assocGetJ d (JVal.jstr n) := by
  induction entries generalizing d with
  | nil => rfl
  | cons e rest ih =>
      show assocGetJ (rest.foldl sysctlEntryAdd (sysctlEntryAdd d e)) (JVal.jstr n) = _
      rw [ih, lastSysctlValue_cons]
      have hstep : assocGetJ (sysctlEntryAdd d e) (JVal.jstr n) =
          match sysctlEntryValueFor n e with
          | some v => some v
          | none => assocGetJ d (JVal.jstr n) := by
        cases e with
        | jobj fields =>
            cases hname : JVal.dictGet fields "name" with
            | none => simp [sysctlEntryAdd, sysctlEntryValueFor, hname]
            | some m =>
                simp only [sysctlEntryAdd, sysctlEntryValueFor, hname]
                rw [assocGetJ_assocSetJ_str]
                by_cases hms : JVal.beq m (JVal.jstr n) = true
                · simp [hms]
                · rw [Bool.not_eq_true] at hms
                  simp [hms]
        | jnull => rfl
        | jbool b => rfl
        | jnat m => rfl
        | jstr s => rfl
        | jarr l => rfl
      rw [hstep]
      cases sysctlEntryValueFor n e <;> cases lastSysctlValue rest n <;> rfl

theorem sysctlValueIn_map (d : List (JVal × JVal)) (n : String) :
    sysctlValueIn (d.map fun kv => JVal.jobj [("name", kv.1), ("value", kv.2)]) n =
      assocGetJ d (JVal.jstr n) := by
  induction d with
  | nil => rfl
  | cons hd tl ih =>
      obtain ⟨k, v⟩ := hd
      show (match sysctlEntryValueFor n (JVal.jobj [("name", k), ("value", v)]) with
        | some w => some w
        | none =>
            sysctlValueIn
              (tl.map fun kv : JVal × JVal => JVal.jobj [("name", kv.1), ("value", kv.2)]) n) = _
      rw [ih]
      show (match (if JVal.beq k (JVal.jstr n) then
          some ((JVal.dictGet [("name", k), ("value", v)] "value").getD (JVal.jstr "")) else none) with
        | some w => some w
        | none => assocGetJ tl (JVal.jstr n)) =
        (if JVal.beq k (JVal.jstr n) then some v else assocGetJ tl (JVal.jstr n))
      by_cases hk : JVal.beq k (JVal.jstr n) = true
      · rw [hk]
        rfl
      · rw [Bool.not_eq_true] at hk
        rw [hk]
        rfl

theorem lastSysctlValue_ipv6_other (n : String)
    (h1 : n ≠ "net.ipv6.conf.all.disable_ipv6")
    (h2 : n ≠ "net.ipv6.conf.default.disable_ipv6")
    (h3 : n ≠ "net.ipv6.conf.lo.disable_ipv6") :
    lastSysctlValue buildIpv6DisableSysctls n = none := by
  have e1 : ("net.ipv6.conf.all.disable_ipv6" == n) = false := by
    rw [beq_eq_false_iff_ne]
    exact fun hh => h1 hh.symm
  have e2 : ("net.ipv6.conf.default.disable_ipv6" == n) = false := by
    rw [beq_eq_false_iff_ne]
    exact fun hh => h2 hh.symm
  have e3 : ("net.ipv6.conf.lo.disable_ipv6" == n) = false := by
    rw [beq_eq_false_iff_ne]
    exact fun hh => h3 hh.symm
  simp [lastSysctlValue, buildIpv6DisableSysctls, sysctlEntryValueFor, JVal.dictGet,
    JVal.beq, e1, e2, e3]

theorem sysctlValueIn_ipv6_other (n : String)
    (h1 : n ≠ "net.ipv6.conf.all.disable_ipv6")
    (h2 : n ≠ "net.ipv6.conf.default.disable_ipv6")
    (h3 : n ≠ "net.ipv6.conf.lo.disable_ipv6") :
    sysctlValueIn buildIpv6DisableSysctls n = none := by
  have e1 : ("net.ipv6.conf.all.disable_ipv6" == n) = false := by
    rw [beq_eq_false_iff_ne]
    exact fun hh => h1 hh.symm
  have e2 : ("net.ipv6.conf.default.disable_ipv6" == n) = false := by
    rw [beq_eq_false_iff_ne]
    exact fun hh => h2 hh.symm
  have e3 : ("net.ipv6.conf.lo.disable_ipv6" == n) = false := by
    rw [beq_eq_false_iff_ne]
    exact fun hh => h3 hh.symm
  simp [sysctlValueIn, buildIpv6DisableSysctls, sysctlEntryValueFor, JVal.dictGet,
    JVal.beq, e1, e2, e3]

theorem mergeSysctls_lookup (es nw : List JVal) (n : String) (hne : es ≠ []) :
    sysctlValueIn (mergeSysctls (some es) nw) n =
      match lastSysctlValue (es ++ nw) n with
      | some v => some v
      | none => none := by
  rcases es with _ | ⟨e, es'⟩
  · exact absurd rfl hne
  · have hm : mergeSysctls (some (e :: es')) nw =
        (((e :: es') ++ nw).foldl sysctlEntryAdd []).map
          (fun kv : JVal × JVal => JVal.jobj [("name", kv.1), ("value", kv.2)]) := rfl
    rw [hm, sysctlValueIn_map, foldl_sysctlEntryAdd_lookup]
    cases lastSysctlValue (e :: es' ++ nw) n <;> rfl

theorem mergeSysctls_ipv6_spec (existingOpt : Option (List JVal)) :
    sysctlValueIn (mergeSysctls existingOpt buildIpv6DisableSysctls)
      "net.ipv6.conf.all.disable_ipv6" = some (JVal.jstr "1") ∧
    sysctlValueIn (mergeSysctls existingOpt buildIpv6DisableSysctls)
      "net.ipv6.conf.default.disable_ipv6" = some (JVal.jstr "1") ∧
    sysctlValueIn (mergeSysctls existingOpt buildIpv6DisableSysctls)
      "net.ipv6.conf.lo.disable_ipv6" = some (JVal.jstr "1") ∧
    ∀ n : String,
      n ≠ "net.ipv6.conf.all.disable_ipv6" →
      n ≠ "net.ipv6.conf.default.disable_ipv6" →
      n ≠ "net.ipv6.conf.lo.disable_ipv6" →
      sysctlValueIn (mergeSysctls existingOpt buildIpv6DisableSysctls) n =
        lastSysctlValue (existingOpt.getD []) n := by
  have hother : ∀ n : String,
      n ≠ "net.ipv6.conf.all.disable_ipv6" →
      n ≠ "net.ipv6.conf.default.disable_ipv6" →
      n ≠ "net.ipv6.conf.lo.disable_ipv6" →
      ∀ es : List JVal, es ≠ [] →
      sysctlValueIn (mergeSysctls (some es) buildIpv6DisableSysctls) n =
        lastSysctlValue es n := by
    intro n h1 h2 h3 es hne
    rw [mergeSysctls_lookup es _ n hne, lastSysctlValue_append,
      lastSysctlValue_ipv6_other n h1 h2 h3]
    cases lastSysctlValue es n <;> rfl
  have hipv6 : ∀ (es : List JVal), es ≠ [] → ∀ nv : String,
      lastSysctlValue buildIpv6DisableSysctls nv = some (JVal.jstr "1") →
      sysctlValueIn (mergeSysctls (some es) buildIpv6DisableSysctls) nv =
        some (JVal.jstr "1") := by
    intro es hne nv hnv
    rw [mergeSysctls_lookup es _ nv hne, lastSysctlValue_append, hnv]
  rcases existingOpt with _ | es
  · exact ⟨rfl, rfl, rfl, fun n h1 h2 h3 => by
      show sysctlValueIn buildIpv6DisableSysctls n = _
      rw [sysctlValueIn_ipv6_other n h1 h2 h3]; rfl⟩
  · rcases es with _ | ⟨e, es'⟩
    · exact ⟨rfl, rfl, rfl, fun n h1 h2 h3 => by
        show sysctlValueIn buildIpv6DisableSysctls n = _
        rw [sysctlValueIn_ipv6_other n h1 h2 h3]; rfl⟩
    · exact ⟨hipv6 (e :: es') (by simp) _ rfl,
             hipv6 (e :: es') (by simp) _ rfl,
             hipv6 (e :: es') (by simp) _ rfl,
             fun n h1 h2 h3 => hother n h1 h2 h3 (e :: es') (by simp)⟩

theorem dictGet_none_of_any_eq_false (l : List (String × JVal)) (k : String)
    (h : (l.any fun kv => kv.1 == k) = false) : JVal.dictGet l k = none := by
  induction l with
  | nil => rfl
  | cons hd tl ih =>
      obtain ⟨k₀, v₀⟩ := hd
      simp only [List.any_cons, Bool.or_eq_false_iff] at h
      have hne : ¬ k₀ = k := by
        have := h.1
        simp only [beq_eq_false_iff_ne] at this
        exact this
      simp only [JVal.dictGet, if_neg hne]
      exact ih h.2

theorem noDupKeys_cons (k₀ : String) (v₀ : JVal) (rest : List (String × JVal))
    (h : noDupKeys ((k₀, v₀) :: rest) = true) :
    (rest.any fun kv => kv.1 == k₀) = false ∧ noDupKeys rest = true := by
  simp only [noDupKeys, Bool.and_eq_true, Bool.not_eq_true'] at h
  exact h

theorem jvalWFFields_get (fields : List (String × JVal)) (k : String) (w : JVal)
    (hwf : jvalWFFields fields = true) (hget : JVal.dictGet fields k = some w) :
    jvalWF w = true := by
  induction fields with
  | nil => cases hget
  | cons hd tl ih =>
      obtain ⟨k₀, v₀⟩ := hd
      simp only [jvalWFFields, Bool.and_eq_true] at hwf
      by_cases hk : k₀ = k
      · simp only [JVal.dictGet, if_pos hk] at hget
        cases hget
        exact hwf.1
      · simp only [JVal.dictGet, if_neg hk] at hget
        exact ih hwf.2 hget

theorem jvalWF_obj_parts (M : List (String × JVal)) (h : jvalWF (JVal.jobj M) = true) :
    noDupKeys M = true ∧ jvalWFFields M = true := by
  simp only [jvalWF, Bool.and_eq_true] at h
  exact h

theorem deepMerge_dictGet (override base : List (String × JVal)) (k : String)
    (hnd : noDupKeys override = true) :
    JVal.dictGet (deepMerge base override) k =
      match JVal.dictGet override k with
      | none => JVal.dictGet base k
      | some JVal.jnull => JVal.dictGet base k
      | some (JVal.jobj vd) =>
          match JVal.dictGet base k with
          | some (JVal.jobj bd) => some (JVal.jobj (deepMerge bd vd))
          | _ => some (JVal.jobj vd)
      | some v => some v := by
  induction override generalizing base with
  | nil =>
      simp only [deepMerge]
      rfl
  | cons hd rest ih =>
      obtain ⟨k₀, v₀⟩ := hd
      obtain ⟨hnotin, hndrest⟩ := noDupKeys_cons k₀ v₀ rest hnd
      by_cases hk : k₀ = k
      · subst hk
        have hrest0 : JVal.dictGet rest k₀ = none := dictGet_none_of_any_eq_false rest k₀ hnotin
        have hov : JVal.dictGet ((k₀, v₀) :: rest) k₀ = some v₀ := by
          simp [JVal.dictGet]
        rw [hov]
        cases v₀ with
        | jnull =>
            simp only [deepMerge]
            rw [ih base hndrest, hrest0]
        | jobj vd =>
            cases hb : JVal.dictGet base k₀ with
            | none =>
                simp only [deepMerge, hb]
                rw [ih _ hndrest, hrest0, JVal.dictGet_dictSet_self]
            | some w =>
                cases w <;>
                  (simp only [deepMerge, hb]
                   rw [ih _ hndrest, hrest0, JVal.dictGet_dictSet_self])
        | jbool b =>
            simp only [deepMerge]
            rw [ih _ hndrest, hrest0, JVal.dictGet_dictSet_self]
        | jnat m =>
            simp only [deepMerge]
            rw [ih _ hndrest, hrest0, JVal.dictGet_dictSet_self]
        | jstr s =>
            simp only [deepMerge]
            rw [ih _ hndrest, hrest0, JVal.dictGet_dictSet_self]
        | jarr l =>
            simp only [deepMerge]
            rw [ih _ hndrest, hrest0, JVal.dictGet_dictSet_self]
      · have hov : JVal.dictGet ((k₀, v₀) :: rest) k = JVal.dictGet rest k := by
          simp [JVal.dictGet, hk]
        rw [hov]
        cases v₀ with
        | jnull =>
            simp only [deepMerge]
            rw [ih base hndrest]
        | jobj vd =>
            cases hb : JVal.dictGet base k₀ with
            | none =>
                simp only [deepMerge, hb]
                rw [ih _ hndrest, JVal.dictGet_dictSet_ne base k₀ k _ hk]
            | some w =>
                cases w <;>
                  (simp only [deepMerge, hb]
                   rw [ih _ hndrest, JVal.dictGet_dictSet_ne base k₀ k _ hk])
        | jbool b =>
            simp only [deepMerge]
            rw [ih _ hndrest, JVal.dictGet_dictSet_ne base k₀ k _ hk]
        | jnat m =>
            simp only [deepMerge]
            rw [ih _ hndrest, JVal.dictGet_dictSet_ne base k₀ k _ hk]
        | jstr s =>
            simp only [deepMerge]
            rw [ih _ hndrest, JVal.dictGet_dictSet_ne base k₀ k _ hk]
        | jarr l =>
            simp only [deepMerge]
            rw [ih _ hndrest, JVal.dictGet_dictSet_ne base k₀ k _ hk]

theorem deepMerge_getPath_override (p : List String) :
    ∀ (M base : List (String × JVal)) (v : JVal),
      jvalWF (JVal.jobj M) = true →
      JVal.getPath (JVal.jobj M) p = some v →
      (match v with | JVal.jobj _ => False | JVal.jnull => False | _ => True) →
      JVal.getPath (JVal.jobj (deepMerge base M)) p = some v := by
  induction p with
  | nil =>
      intro M base v hwf hget hv
      have hvt : JVal.jobj M = v := by simpa [JVal.getPath] using hget
      rw [← hvt] at hv
      exact hv.elim
  | cons kk rest ih =>
      intro M base v hwf hget hv
      obtain ⟨hnd, hwff⟩ := jvalWF_obj_parts M hwf
      simp only [JVal.getPath] at hget ⊢
      cases hw : JVal.dictGet M kk with
      | none =>
          rw [hw] at hget
          cases hget
      | some w =>
          rw [hw] at hget
          have hwfw : jvalWF w = true := jvalWFFields_get M kk w hwff hw
          rw [deepMerge_dictGet M base kk hnd, hw]
          cases w with
          | jnull =>
              exfalso
              cases rest with
              | nil =>
                  have hvt : JVal.jnull = v := by simpa [JVal.getPath] using hget
                  rw [← hvt] at hv
                  exact hv.elim
              | cons r rs =>
                  simp [JVal.getPath] at hget
          | jobj wd =>
              cases hbb : JVal.dictGet base kk with
              | none => exact hget
              | some bw =>
                  cases bw with
                  | jobj bd => exact ih wd bd v hwfw hget hv
                  | jnull => exact hget
                  | jbool b => exact hget
                  | jnat m => exact hget
                  | jstr s => exact hget
                  | jarr l => exact hget
          | jbool b => exact hget
          | jnat m => exact hget
          | jstr s => exact hget
          | jarr l => exact hget

theorem deepMerge_getPath_base (p : List String) :
    ∀ (T M : List (String × JVal)) (v : JVal),
      jvalWF (JVal.jobj M) = true →
      JVal.getPath (JVal.jobj T) p = some v →
      (match v with | JVal.jobj _ => False | _ => True) →
      (∀ i : Nat, 0 < i → i < p.length →
        (match JVal.getPath (JVal.jobj M) (p.take i) with
         | none => True
         | some JVal.jnull => True
         | some (JVal.jobj _) => True
         | some _ => False)) →
      (JVal.getPath (JVal.jobj M) p = none ∨ JVal.getPath (JVal.jobj M) p = some JVal.jnull) →
      JVal.getPath (JVal.jobj (deepMerge T M)) p = some v := by
  induction p with
  | nil =>
      intro T M v hwf hget hv hpre hp
      have hvt : JVal.jobj T = v := by simpa [JVal.getPath] using hget
      rw [← hvt] at hv
      exact hv.elim
  | cons kk rest ih =>
      intro T M v hwf hget hv hpre hp
      obtain ⟨hnd, hwff⟩ := jvalWF_obj_parts M hwf
      simp only [JVal.getPath] at hget ⊢
      cases hw : JVal.dictGet T kk with
      | none =>
          rw [hw] at hget
          cases hget
      | some w =>
          rw [hw] at hget
          rw [deepMerge_dictGet M T kk hnd]
          cases hm : JVal.dictGet M kk with
          | none =>
              rw [hw]
              exact hget
          | some mv =>
              cases mv with
              | jnull =>
                  rw [hw]
                  exact hget
              | jobj md =>
                  cases rest with
                  | nil =>
                      exfalso
                      rcases hp with hp | hp <;>
                        simp [JVal.getPath, hm] at hp
                  | cons r rs =>
                      cases w with
                      | jobj bd =>
                          rw [hw]
                          have hwfmd : jvalWF (JVal.jobj md) = true :=
                            jvalWFFields_get M kk (JVal.jobj md) hwff hm
                          apply ih bd md v hwfmd hget hv
                          · intro i hi hlen
                            have h2 := hpre (i + 1) (by omega) (by simp at hlen ⊢; omega)
                            simpa [List.take, JVal.getPath, hm] using h2
                          · rcases hp with hp | hp
                            · left
                              simpa [JVal.getPath, hm] using hp
                            · right
                              simpa [JVal.getPath, hm] using hp
                      | jnull => simp [JVal.getPath] at hget
                      | jbool b => simp [JVal.getPath] at hget
                      | jnat m => simp [JVal.getPath] at hget
                      | jstr s => simp [JVal.getPath] at hget
                      | jarr l => simp [JVal.getPath] at hget
              | jbool b =>
                  exfalso
                  cases rest with
                  | nil =>
                      rcases hp with hp | hp <;> simp [JVal.getPath, hm] at hp
                  | cons r rs =>
                      have h1 := hpre 1 (by omega) (by simp)
                      simp [List.take, JVal.getPath, hm] at h1
              | jnat m =>
                  exfalso
                  cases rest with
                  | nil =>
                      rcases hp with hp | hp <;> simp [JVal.getPath, hm] at hp
                  | cons r rs =>
                      have h1 := hpre 1 (by omega) (by simp)
                      simp [List.take, JVal.getPath, hm] at h1
              | jstr s =>
                  exfalso
                  cases rest with
                  | nil =>
                      rcases hp with hp | hp <;> simp [JVal.getPath, hm] at hp
                  | cons r rs =>
                      have h1 := hpre 1 (by omega) (by simp)
                      simp [List.take, JVal.getPath, hm] at h1
              | jarr l =>
                  exfalso
                  cases rest with
                  | nil =>
                      rcases hp with hp | hp <;> simp [JVal.getPath, hm] at hp
                  | cons r rs =>
                      have h1 := hpre 1 (by omega) (by simp)
                      simp [List.take, JVal.getPath, hm] at h1

/-! ## Claim theorems -/

/-- **C7**: `BatchSandboxProvider.get_status` derives the state as
follows: `ready == 1` with a present non-empty endpoints annotation gives
Running; otherwise `ready > 0` gives Pending with reason
`POD_READY_NO_IP`; otherwise `allocated > 0` gives Pending with reason
`POD_SCHEDULED`; otherwise Pending with reason `BATCHSANDBOX_PENDING`. -/
theorem getStatus_state_machine (w : BatchSandboxWorkload) :
    ((w.ready = 1 ∧ ∃ s, w.endpointsAnnotation = some s ∧ s ≠ "") →
        (getStatus w).state = "Running") ∧
    (¬(w.ready = 1 ∧ ∃ s, w.endpointsAnnotation = some s ∧ s ≠ "") → 0 < w.ready →
        (getStatus w).state = "Pending" ∧ (getStatus w).reason = "POD_READY_NO_IP") ∧
    (¬(0 < w.ready) → 0 < w.allocated →
        (getStatus w).state = "Pending" ∧ (getStatus w).reason = "POD_SCHEDULED") ∧
    (¬(0 < w.ready) → ¬(0 < w.allocated) →
        (getStatus w).state = "Pending" ∧ (getStatus w).reason = "BATCHSANDBOX_PENDING") := by
  have hiff : (w.ready == 1 && endpointsTruthy w) = true ↔
      (w.ready = 1 ∧ ∃ s, w.endpointsAnnotation = some s ∧ s ≠ "") := by
    constructor
    · intro h
      simp only [Bool.and_eq_true, beq_iff_eq] at h
      refine ⟨h.1, ?_⟩
      unfold endpointsTruthy at h
      cases hep : w.endpointsAnnotation with
      | none => rw [hep] at h; simp at h
      | some s =>
          rw [hep] at h
          refine ⟨s, rfl, ?_⟩
          simpa using h.2
    · rintro ⟨h1, s, hs, hne⟩
      simp only [Bool.and_eq_true, beq_iff_eq]
      exact ⟨h1, by simp [endpointsTruthy, hs, hne]⟩
  refine ⟨?_, ?_, ?_, ?_⟩
  · intro h
    rw [← hiff] at h
    simp [getStatus, h]
  · intro h hr
    rw [← hiff] at h
    rw [Bool.not_eq_true] at h
    simp [getStatus, h, hr]
  · intro h ha
    have hb : (w.ready == 1 && endpointsTruthy w) = false := by
      rcases Bool.eq_false_or_eq_true (w.ready == 1 && endpointsTruthy w) with ht | hf
      · exact absurd (hiff.mp ht).1 (by intro he; exact h (by omega))
      · exact hf
    simp [getStatus, hb, h, ha]
  · intro h ha
    have hb : (w.ready == 1 && endpointsTruthy w) = false := by
      rcases Bool.eq_false_or_eq_true (w.ready == 1 && endpointsTruthy w) with ht | hf
      · exact absurd (hiff.mp ht).1 (by intro he; exact h (by omega))
      · exact hf
    simp [getStatus, hb, h, ha]

/-- Witness for C7 at concrete workloads covering all four branches. -/
theorem getStatus_state_machine_witness :
    (getStatus ⟨1, 1, 1, some "10.0.0.5", none⟩).state = "Running" ∧
    ((getStatus ⟨1, 1, 0, none, none⟩).state = "Pending" ∧
      (getStatus ⟨1, 1, 0, none, none⟩).reason = "POD_READY_NO_IP") ∧
    ((getStatus ⟨1, 0, 1, none, none⟩).state = "Pending" ∧
      (getStatus ⟨1, 0, 1, none, none⟩).reason = "POD_SCHEDULED") ∧
    ((getStatus ⟨0, 0, 0, none, none⟩).state = "Pending" ∧
      (getStatus ⟨0, 0, 0, none, none⟩).reason = "BATCHSANDBOX_PENDING") :=
  ⟨(getStatus_state_machine ⟨1, 1, 1, some "10.0.0.5", none⟩).1
      ⟨rfl, "10.0.0.5", rfl, by decide⟩,
   (getStatus_state_machine ⟨1, 1, 0, none, none⟩).2.1
      (by rintro ⟨-, s, hs, -⟩; cases hs) (by decide),
   (getStatus_state_machine ⟨1, 0, 1, none, none⟩).2.2.1 (by decide) (by decide),
   (getStatus_state_machine ⟨0, 0, 0, none, none⟩).2.2.2 (by decide) (by decide)⟩

/-- **C9**: `legacy_resource_name` prefixes `sandbox-` exactly once (ids
already carrying the prefix are returned unchanged, all others get it
prepended), hence it is idempotent; and `get_workload` queries the plain
sandbox id first and falls back to the legacy name only when the first
lookup returns 404. -/
theorem legacy_name_prefix_once_and_fallback :
    (∀ id : String, strStartsWith id "sandbox-" = true → legacyResourceName id = id) ∧
    (∀ id : String, strStartsWith id "sandbox-" = false →
        legacyResourceName id = "sandbox-" ++ id) ∧
    (∀ id : String, legacyResourceName (legacyResourceName id) = legacyResourceName id) ∧
    (∀ (api : String → ApiResult) (id : String) (w : JVal),
        api id = ApiResult.found w → getWorkloadTrace api id = ([id], Except.ok (some w))) ∧
    (∀ (api : String → ApiResult) (id : String),
        api id ≠ ApiResult.notFound → (getWorkloadTrace api id).1 = [id]) ∧
    (∀ (api : String → ApiResult) (id : String),
        api id = ApiResult.notFound → legacyResourceName id ≠ id →
        (getWorkloadTrace api id).1 = [id, legacyResourceName id]) := by
  have hpre : ∀ id : String, strStartsWith ("sandbox-" ++ id) "sandbox-" = true := by
    intro id
    unfold strStartsWith
    rw [String.data_append]
    exact listStartsWith_append_self _ _
  refine ⟨?_, ?_, ?_, ?_, ?_, ?_⟩
  · intro id h
    simp [legacyResourceName, h]
  · intro id h
    simp [legacyResourceName, h]
  · intro id
    by_cases h : strStartsWith id "sandbox-" = true
    · simp [legacyResourceName, h]
    · rw [Bool.not_eq_true] at h
      simp [legacyResourceName, h, hpre id]
  · intro api id w h
    simp [getWorkloadTrace, h]
  · intro api id h
    unfold getWorkloadTrace
    cases hres : api id with
    | found w => rfl
    | apiFailure => rfl
    | notFound => exact absurd hres h
  · intro api id h hne
    unfold getWorkloadTrace
    rw [h]
    simp only [if_neg hne]
    cases api (legacyResourceName id) <;> rfl

/-- Witness for C9 at concrete inputs: an unprefixed id gets the prefix,
a prefixed id is unchanged, idempotence holds, and a 404 on the plain id
triggers exactly one legacy-name fallback query. -/
theorem legacy_name_prefix_once_and_fallback_witness :
    legacyResourceName "sandbox-abc" = "sandbox-abc" ∧
    legacyResourceName "abc" = "sandbox-" ++ "abc" ∧
    legacyResourceName (legacyResourceName "abc") = legacyResourceName "abc" ∧
    getWorkloadTrace (fun _ => ApiResult.found (JVal.jobj [])) "abc" =
      (["abc"], Except.ok (some (JVal.jobj []))) ∧
    (getWorkloadTrace (fun _ => ApiResult.notFound) "abc").1 =
      ["abc", legacyResourceName "abc"] :=
  ⟨legacy_name_prefix_once_and_fallback.1 "sandbox-abc" (by decide),
   legacy_name_prefix_once_and_fallback.2.1 "abc" (by decide),
   legacy_name_prefix_once_and_fallback.2.2.1 "abc",
   legacy_name_prefix_once_and_fallback.2.2.2.1 (fun _ => ApiResult.found (JVal.jobj []))
     "abc" (JVal.jobj []) rfl,
   legacy_name_prefix_once_and_fallback.2.2.2.2.2 (fun _ => ApiResult.notFound) "abc" rfl
     (by decide)⟩

/-- Folding the Z-replacement step over Z-free characters leaves them
unchanged in front of the accumulator. -/
theorem replaceZ_foldr_no_z (l : List Char) (acc : List Char)
    (h : ∀ c ∈ l, c ≠ 'Z') :
    l.foldr
      (fun c acc => if c = 'Z' then '+' :: '0' :: '0' :: ':' :: '0' :: '0' :: acc else c :: acc)
      acc = l ++ acc := by
  induction l with
  | nil => rfl
  | cons c cs ih =>
      have hc : c ≠ 'Z' := h c (List.mem_cons_self c cs)
      simp only [List.foldr_cons, if_neg hc, List.cons_append]
      rw [ih (fun x hx => h x (List.mem_cons_of_mem c hx))]

/-- **C10 counterexample**: the claim says `get_expiration` is total and
never raises for every workload dictionary; on a workload whose
`spec.expireTime` is the (truthy, non-string) number 5, the Python code
raises `AttributeError` on `expire_time_str.replace` — an exception the
surrounding `except (ValueError, TypeError)` does not catch. -/
theorem getExpiration_raises_on_numeric :
    getExpiration (fun _ => (none : Option Unit))
      (JVal.jobj [("spec", JVal.jobj [("expireTime", JVal.jnat 5)])]) =
      Except.error PyError.attributeError := rfl

/-- **C10 (amended)**: for every workload whose `spec.expireTime`
(respectively `spec.shutdownTime` for the agent-sandbox provider) is
absent, falsy, or a string, `get_expiration` does not raise: it returns
`None` when the field is absent, empty or unparseable, and otherwise the
result of `datetime.fromisoformat` applied to the value with every `'Z'`
replaced by `'+00:00'` (so a trailing `'Z'` is accepted); the workload
argument is not modified (the embedding is pure). A truthy non-string
value makes the code raise `AttributeError`. -/
theorem getExpiration_amended :
    (∀ (α : Type) (parse : String → Option α) (d sd : List (String × JVal)),
        (JVal.dictGet d "spec").getD (JVal.jobj []) = JVal.jobj sd →
        JVal.dictGet sd "expireTime" = none →
        getExpiration parse (JVal.jobj d) = Except.ok none) ∧
    (∀ (α : Type) (parse : String → Option α) (d sd : List (String × JVal)) (v : JVal),
        (JVal.dictGet d "spec").getD (JVal.jobj []) = JVal.jobj sd →
        JVal.dictGet sd "expireTime" = some v → JVal.jFalsy v = true →
        getExpiration parse (JVal.jobj d) = Except.ok none) ∧
    (∀ (α : Type) (parse : String → Option α) (d sd : List (String × JVal)) (s : String),
        (JVal.dictGet d "spec").getD (JVal.jobj []) = JVal.jobj sd →
        JVal.dictGet sd "expireTime" = some (JVal.jstr s) → s ≠ "" →
        getExpiration parse (JVal.jobj d) = Except.ok (parse (replaceZ s))) ∧
    (∀ (α : Type) (parse : String → Option α) (d sd : List (String × JVal)),
        (JVal.dictGet d "spec").getD (JVal.jobj []) = JVal.jobj sd →
        JVal.dictGet sd "shutdownTime" = none →
        agentGetExpiration parse (JVal.jobj d) = Except.ok none) ∧
    (∀ (α : Type) (parse : String → Option α) (d sd : List (String × JVal)) (s : String),
        (JVal.dictGet d "spec").getD (JVal.jobj []) = JVal.jobj sd →
        JVal.dictGet sd "shutdownTime" = some (JVal.jstr s) → s ≠ "" →
        agentGetExpiration parse (JVal.jobj d) = Except.ok (parse (replaceZ s))) ∧
    (∀ s : String, (∀ c ∈ s.data, c ≠ 'Z') →
        replaceZ (s ++ "Z") = s ++ "+00:00") := by
  refine ⟨?_, ?_, ?_, ?_, ?_, ?_⟩
  · intro α parse d sd hspec hget
    simp [getExpiration, getExpirationAtKey, hspec, hget]
  · intro α parse d sd v hspec hget hfalsy
    simp [getExpiration, getExpirationAtKey, hspec, hget, hfalsy]
  · intro α parse d sd s hspec hget hs
    simp [getExpiration, getExpirationAtKey, hspec, hget, JVal.jFalsy, hs]
  · intro α parse d sd hspec hget
    simp [agentGetExpiration, getExpirationAtKey, hspec, hget]
  · intro α parse d sd s hspec hget hs
    simp [agentGetExpiration, getExpirationAtKey, hspec, hget, JVal.jFalsy, hs]
  · intro s h
    show String.mk _ = _
    rw [String.data_append]
    rw [List.foldr_append]
    have hz : (String.mk ['Z']).data.foldr
        (fun c acc => if c = 'Z' then '+' :: '0' :: '0' :: ':' :: '0' :: '0' :: acc else c :: acc)
        [] = ('+' :: '0' :: '0' :: ':' :: '0' :: '0' :: []) := rfl
    show String.mk (s.data.foldr _ (List.foldr _ [] ['Z'])) = s ++ "+00:00"
    rw [show (List.foldr
        (fun c acc => if c = 'Z' then '+' :: '0' :: '0' :: ':' :: '0' :: '0' :: acc else c :: acc)
        [] ['Z']) = ['+', '0', '0', ':', '0', '0'] from rfl]
    rw [replaceZ_foldr_no_z s.data _ h]
    rfl

/-- Witness for C10 at concrete inputs: an absent field, an empty string,
a parseable string with a trailing `Z`, and the shutdownTime variants. -/
theorem getExpiration_amended_witness :
    getExpiration (fun _ => (none : Option Unit)) (JVal.jobj []) = Except.ok none ∧
    getExpiration (fun _ => (none : Option Unit))
      (JVal.jobj [("spec", JVal.jobj [("expireTime", JVal.jstr "")])]) = Except.ok none ∧
    getExpiration (fun s => some s)
      (JVal.jobj [("spec", JVal.jobj [("expireTime", JVal.jstr "2026-01-01T00:00:00Z")])]) =
      Except.ok (some "2026-01-01T00:00:00+00:00") ∧
    agentGetExpiration (fun _ => (none : Option Unit)) (JVal.jobj []) = Except.ok none ∧
    agentGetExpiration (fun s => some s)
      (JVal.jobj [("spec", JVal.jobj [("shutdownTime", JVal.jstr "2026-01-01T00:00:00Z")])]) =
      Except.ok (some "2026-01-01T00:00:00+00:00") ∧
    replaceZ ("2026-01-01T00:00:00" ++ "Z") = "2026-01-01T00:00:00" ++ "+00:00" :=
  ⟨getExpiration_amended.1 Unit (fun _ => none) [] [] rfl rfl,
   getExpiration_amended.2.1 Unit (fun _ => none) [("spec", JVal.jobj [("expireTime", JVal.jstr "")])]
     [("expireTime", JVal.jstr "")] (JVal.jstr "") rfl rfl rfl,
   by
     have h := getExpiration_amended.2.2.1 String (fun s => some s)
       [("spec", JVal.jobj [("expireTime", JVal.jstr "2026-01-01T00:00:00Z")])]
       [("expireTime", JVal.jstr "2026-01-01T00:00:00Z")] "2026-01-01T00:00:00Z"
       rfl rfl (by decide)
     rw [h]
     rfl,
   getExpiration_amended.2.2.2.1 Unit (fun _ => none) [] [] rfl rfl,
   by
     have h := getExpiration_amended.2.2.2.2.1 String (fun s => some s)
       [("spec", JVal.jobj [("shutdownTime", JVal.jstr "2026-01-01T00:00:00Z")])]
       [("shutdownTime", JVal.jstr "2026-01-01T00:00:00Z")] "2026-01-01T00:00:00Z"
       rfl rfl (by decide)
     rw [h]
     rfl,
   getExpiration_amended.2.2.2.2.2 "2026-01-01T00:00:00" (by decide)⟩

/-- **C8**: with a null network policy or a null egress image,
`apply_egress_to_spec` emits nothing — the pod spec and the containers
list come back exactly as they went in (no sidecar, no security context,
no sysctls). -/
theorem apply_egress_noop (podSpec : JVal) (containers : List JVal)
    (networkPolicy : Option NetworkPolicy) (egressImage : Option String)
    (h : networkPolicy = none ∨ egressImage = none) :
    applyEgressToSpec podSpec containers networkPolicy egressImage =
      Except.ok (podSpec, containers) := by
  rcases h with h | h <;> subst h
  · cases egressImage <;> rfl
  · cases networkPolicy <;> rfl

/-- Witness for C8: a concrete pod spec and container list survive a
null-policy call and a null-image call unchanged. -/
theorem apply_egress_noop_witness :
    applyEgressToSpec (JVal.jobj [("containers", JVal.jarr [])])
      [JVal.jobj [("name", JVal.jstr "sandbox")]] none (some "egress:v1") =
      Except.ok ((JVal.jobj [("containers", JVal.jarr [])]),
        [JVal.jobj [("name", JVal.jstr "sandbox")]]) ∧
    applyEgressToSpec (JVal.jobj [])
      [] (some { defaultAction := some "deny" }) none =
      Except.ok ((JVal.jobj []), []) :=
  ⟨apply_egress_noop _ _ none (some "egress:v1") (Or.inl rfl),
   apply_egress_noop _ _ (some { defaultAction := some "deny" }) none (Or.inr rfl)⟩

/-- **C1**: when `extensions` carries a non-empty `poolRef`,
`create_workload` builds a manifest whose spec has `replicas = 1`, the
`poolRef`, the `expireTime` and a `taskTemplate`, but no `template` (no
PodSpec is generated); the task command is
`["/bin/sh", "-c", "/opt/opensandbox/bin/bootstrap.sh <each entrypoint
argument shell-quoted, joined by single spaces> &"]` and the task env is
the env mapping serialized as `{name, value}` objects. -/
theorem create_workload_pool_mode (template : Option (List (String × JVal)))
    (sandboxId namespc imageUri : String) (entrypoint : List String)
    (env resourceLimits labels : List (String × String)) (expiresAtIso execdImage : String)
    (extensions : Option (List (String × String)))
    (networkPolicy : Option NetworkPolicy) (egressImage : Option String)
    (p : String)
    (hpool : (extensions.getD []).lookup "poolRef" = some p) (hp : p ≠ "") :
    ∃ m, createWorkloadManifest template sandboxId namespc imageUri entrypoint env
        resourceLimits labels expiresAtIso execdImage extensions networkPolicy egressImage
        = Except.ok m ∧
      JVal.getPath m ["spec", "replicas"] = some (JVal.jnat 1) ∧
      JVal.getPath m ["spec", "poolRef"] = some (JVal.jstr p) ∧
      JVal.getPath m ["spec", "expireTime"] = some (JVal.jstr expiresAtIso) ∧
      JVal.getPath m ["spec", "template"] = none ∧
      JVal.getPath m ["spec", "taskTemplate", "spec", "process", "command"] =
        some (JVal.jarr [JVal.jstr "/bin/sh", JVal.jstr "-c",
          JVal.jstr ("/opt/opensandbox/bin/bootstrap.sh " ++
            String.intercalate " " (entrypoint.map shlexQuote) ++ " &")]) ∧
      JVal.getPath m ["spec", "taskTemplate", "spec", "process", "env"] =
        some (JVal.jarr (env.map fun kv =>
          JVal.jobj [("name", JVal.jstr kv.1), ("value", JVal.jstr kv.2)])) := by
  refine ⟨createWorkloadFromPoolManifest sandboxId namespc labels p expiresAtIso
    entrypoint env, ?_, ?_, ?_, ?_, ?_, ?_, ?_⟩
  · unfold createWorkloadManifest
    simp only [hpool]
    simp [hp]
  all_goals
    simp [createWorkloadFromPoolManifest, buildTaskTemplate, envToList,
      JVal.getPath, JVal.dictGet]

/-- Witness for C1 at the spec's pool-mode scenario
(`extensions = {"poolRef": "perf-pool"}`, entrypoint
`["python", "app.py"]`, env `{"K": "v"}`). -/
theorem create_workload_pool_mode_witness :
    ∃ m, createWorkloadManifest none "sb-1" "default" "python:3.11"
        ["python", "app.py"] [("K", "v")] [] [] "2026-01-01T00:00:00+00:00" "execd:v1"
        (some [("poolRef", "perf-pool")]) none none = Except.ok m ∧
      JVal.getPath m ["spec", "replicas"] = some (JVal.jnat 1) ∧
      JVal.getPath m ["spec", "poolRef"] = some (JVal.jstr "perf-pool") ∧
      JVal.getPath m ["spec", "expireTime"] = some (JVal.jstr "2026-01-01T00:00:00+00:00") ∧
      JVal.getPath m ["spec", "template"] = none ∧
      JVal.getPath m ["spec", "taskTemplate", "spec", "process", "command"] =
        some (JVal.jarr [JVal.jstr "/bin/sh", JVal.jstr "-c",
          JVal.jstr ("/opt/opensandbox/bin/bootstrap.sh " ++
            String.intercalate " " (["python", "app.py"].map shlexQuote) ++ " &")]) ∧
      JVal.getPath m ["spec", "taskTemplate", "spec", "process", "env"] =
        some (JVal.jarr ([("K", "v")].map fun kv =>
          JVal.jobj [("name", JVal.jstr kv.1), ("value", JVal.jstr kv.2)])) :=
  create_workload_pool_mode none "sb-1" "default" "python:3.11" ["python", "app.py"]
    [("K", "v")] [] [] "2026-01-01T00:00:00+00:00" "execd:v1"
    (some [("poolRef", "perf-pool")]) none none "perf-pool" rfl (by decide)

/-- **C5 counterexample**: the path `/..d` satisfies every condition of
the claim — non-empty, absolute, no `//`, no trailing slash, and no
segment *equal* to `..` — yet `ensure_valid_host_path` rejects it,
because the code tests for the substring `/..`, which also matches a
segment that merely *starts* with `..`. -/
theorem host_path_dotdot_named_segment_rejected :
    "/..d" ≠ "" ∧ strStartsWith "/..d" "/" = true ∧
    containsSub "/..d".data ['/', '/'] = false ∧
    ¬(1 < "/..d".data.length ∧ "/..d".data.getLast? = some '/') ∧
    (∀ s ∈ splitOnChar '/' "/..d".data, s ≠ ['.', '.']) ∧
    ensureValidHostPath "/..d" none = Except.error SandboxErrorCode.INVALID_HOST_PATH :=
  ⟨by decide, by decide, by decide, by decide, by decide, rfl⟩

/-- **C5 (amended)**: with `allowed_prefixes = None`,
`ensure_valid_host_path` accepts exactly the non-empty paths that start
with `/`, contain no `//`, do not end with `/` unless they are the root,
and contain no path segment *starting with* `..`; every other path is
rejected with `INVALID_HOST_PATH`. -/
theorem ensure_valid_host_path_no_allowlist (path : String) :
    (ensureValidHostPath path none = Except.ok () ↔
      (path ≠ "" ∧ strStartsWith path "/" = true ∧
       containsSub path.data ['/', '/'] = false ∧
       ¬(1 < path.data.length ∧ path.data.getLast? = some '/') ∧
       ∀ s ∈ splitOnChar '/' path.data, listStartsWith ['.', '.'] s = false)) ∧
    (ensureValidHostPath path none ≠ Except.ok () →
      ensureValidHostPath path none = Except.error SandboxErrorCode.INVALID_HOST_PATH) := by
  refine ⟨ensureValidHostPath_none_ok_iff path, ?_⟩
  intro h
  rcases ensureValidHostPath_none_ok_or path with hok | herr
  · exact absurd hok h
  · exact herr

/-- Witness for C5: a relative path is rejected with the claimed error
code, and a well-formed absolute path is accepted through the
characterization. -/
theorem ensure_valid_host_path_no_allowlist_witness :
    ensureValidHostPath "data/files" none =
      Except.error SandboxErrorCode.INVALID_HOST_PATH ∧
    ensureValidHostPath "/var/data" none = Except.ok () :=
  ⟨(ensure_valid_host_path_no_allowlist "data/files").2
      (fun hh => by cases hh),
   (ensure_valid_host_path_no_allowlist "/var/data").1.mpr
      ⟨by decide, by decide, by decide, by decide, by decide⟩⟩

/-- **C3 counterexample**: the valid absolute path `/data` is accepted
when no allowlist is supplied but rejected with `HOST_PATH_NOT_ALLOWED`
when the allowlist is the *empty list* — `any` over an empty prefix list
is false, so an empty allowlist permits nothing (callers realize the
"empty allowlist permits everything" rule by passing `None`). -/
theorem host_path_empty_allowlist_rejects :
    ensureValidHostPath "/data" none = Except.ok () ∧
    ensureValidHostPath "/data" (some []) =
      Except.error SandboxErrorCode.HOST_PATH_NOT_ALLOWED :=
  ⟨rfl, rfl⟩

/-- **C3 (amended)**: for every path that is non-empty, absolute, free of
`//`, without a trailing slash (except the root) and without a segment
starting with `..`, `ensure_valid_host_path` accepts when called with
*no* allowlist (`allowed_prefixes = None`); called with an empty
allowlist it rejects the same path with `HOST_PATH_NOT_ALLOWED`. -/
theorem host_path_empty_allowlist_amended (path : String)
    (h1 : path ≠ "") (h2 : strStartsWith path "/" = true)
    (h3 : containsSub path.data ['/', '/'] = false)
    (h4 : ¬(1 < path.data.length ∧ path.data.getLast? = some '/'))
    (h5 : ∀ s ∈ splitOnChar '/' path.data, listStartsWith ['.', '.'] s = false) :
    ensureValidHostPath path none = Except.ok () ∧
    ensureValidHostPath path (some []) =
      Except.error SandboxErrorCode.HOST_PATH_NOT_ALLOWED := by
  constructor
  · exact (ensureValidHostPath_none_ok_iff path).mpr ⟨h1, h2, h3, h4, h5⟩
  · rw [ensureValidHostPath_struct_ok path (some [])
      h1 h2 (containsSub_dotdot_of_segs path h5) h3 h4]
    rfl

/-- Witness for C3 at the concrete path `/data/opensandbox`. -/
theorem host_path_empty_allowlist_amended_witness :
    ensureValidHostPath "/data/opensandbox" none = Except.ok () ∧
    ensureValidHostPath "/data/opensandbox" (some []) =
      Except.error SandboxErrorCode.HOST_PATH_NOT_ALLOWED :=
  host_path_empty_allowlist_amended "/data/opensandbox"
    (by decide) (by decide) (by decide) (by decide) (by decide)

theorem isValidLabelKey_iff (ks : String) :
    isValidLabelKey ks = true ↔
      (ks.data.length ≤ 253 ∧
       match splitOnceSlash ks.data with
       | some (pre, name) =>
           pyAnchoredMatch dnsSubdomainCore pre = true ∧
           name.length ≤ 63 ∧ pyAnchoredMatch labelNameCore name = true
       | none => ks.data.length ≤ 63 ∧ pyAnchoredMatch labelNameCore ks.data = true) := by
  unfold isValidLabelKey
  by_cases h253 : ks.data.length > 253
  · rw [if_pos h253]
    simp only [Bool.false_eq_true, false_iff, not_and]
    intro hle
    omega
  · rw [if_neg h253]
    have hle : ks.data.length ≤ 253 := by omega
    cases hsp : splitOnceSlash ks.data with
    | none =>
        simp only [hle, true_and]
        rw [Bool.and_eq_true, decide_eq_true_eq]
    | some pn =>
        obtain ⟨pre, name⟩ := pn
        simp only [hle, true_and]
        by_cases hpre : pre.isEmpty
        · have hpre' : pre = [] := by
            cases pre
            · rfl
            · cases hpre
          subst hpre'
          simp only [List.isEmpty_nil, Bool.true_or, if_pos]
          constructor
          · intro hfalse
            cases hfalse
          · rintro ⟨hmatch, -⟩
            cases hmatch
        · by_cases hname : name.isEmpty
          · have hname' : name = [] := by
              cases name
              · rfl
              · cases hname
            subst hname'
            simp only [hpre, List.isEmpty_nil, Bool.or_true, Bool.false_or, if_pos]
            constructor
            · intro hfalse
              cases hfalse
            · rintro ⟨-, -, hmatch⟩
              cases hmatch
          · have hor : (pre.isEmpty || name.isEmpty) = false := by
              rw [Bool.or_eq_false_iff]
              exact ⟨by rw [Bool.not_eq_true] at hpre; exact hpre,
                     by rw [Bool.not_eq_true] at hname; exact hname⟩
            rw [if_neg (by rw [hor]; exact Bool.false_ne_true)]
            by_cases hsub : pyAnchoredMatch dnsSubdomainCore pre = true
            · rw [hsub]
              simp only [Bool.not_true, Bool.false_eq_true, if_false, hsub, true_and]
              rw [Bool.and_eq_true, decide_eq_true_eq]
            · rw [Bool.not_eq_true] at hsub
              rw [hsub]
              simp

theorem checkMetadataPairs_cons_strs (ks vs : String) (rest : List (PyObj × PyObj)) :
    checkMetadataPairs ((PyObj.pstr ks, PyObj.pstr vs) :: rest) =
      (if (!isValidLabelKey ks) = true then
        Except.error SandboxErrorCode.INVALID_METADATA_LABEL
       else if (!isValidLabelValue vs) = true then
        Except.error SandboxErrorCode.INVALID_METADATA_LABEL
       else checkMetadataPairs rest) := rfl

theorem checkMetadataPairs_ok_iff (l : List (PyObj × PyObj)) :
    checkMetadataPairs l = Except.ok () ↔
      ∀ m ∈ l, ∃ ks vs, m.1 = PyObj.pstr ks ∧ m.2 = PyObj.pstr vs ∧
        isValidLabelKey ks = true ∧ isValidLabelValue vs = true := by
  induction l with
  | nil => simp [checkMetadataPairs]
  | cons hd tl ih =>
      obtain ⟨k, v⟩ := hd
      constructor
      · intro h
        cases k with
        | other => cases h
        | pstr ks =>
            cases v with
            | other => cases h
            | pstr vs =>
                rw [checkMetadataPairs_cons_strs] at h
                by_cases hk : isValidLabelKey ks = true
                swap
                · rw [Bool.not_eq_true] at hk
                  rw [hk] at h
                  cases h
                rw [hk] at h
                simp only [Bool.not_true, Bool.false_eq_true, if_false] at h
                by_cases hv : isValidLabelValue vs = true
                swap
                · rw [Bool.not_eq_true] at hv
                  rw [hv] at h
                  cases h
                rw [hv] at h
                simp only [Bool.not_true, Bool.false_eq_true, if_false] at h
                intro m hm
                rcases List.mem_cons.mp hm with hfirst | htail
                · subst hfirst
                  exact ⟨ks, vs, rfl, rfl, hk, hv⟩
                · exact ih.mp h m htail
      · intro h
        obtain ⟨ks, vs, hk1, hv1, hk, hv⟩ := h (k, v) (List.mem_cons_self _ _)
        simp only at hk1 hv1
        subst hk1
        subst hv1
        rw [checkMetadataPairs_cons_strs, hk, hv]
        simp only [Bool.not_true, Bool.false_eq_true, if_false]
        exact ih.mpr fun m hm => h m (List.mem_cons_of_mem _ hm)

theorem checkMetadataPairs_ok_or (l : List (PyObj × PyObj)) :
    checkMetadataPairs l = Except.ok () ∨
    checkMetadataPairs l = Except.error SandboxErrorCode.INVALID_METADATA_LABEL := by
  induction l with
  | nil => exact Or.inl rfl
  | cons hd tl ih =>
      obtain ⟨k, v⟩ := hd
      cases k with
      | other => exact Or.inr rfl
      | pstr ks =>
          cases v with
          | other => exact Or.inr rfl
          | pstr vs =>
              rw [checkMetadataPairs_cons_strs]
              by_cases hk : (!isValidLabelKey ks) = true
              · rw [if_pos hk]
                exact Or.inr rfl
              rw [if_neg hk]
              by_cases hv : (!isValidLabelValue vs) = true
              · rw [if_pos hv]
                exact Or.inr rfl
              rw [if_neg hv]
              exact ih

/-- **C4 counterexample**: a key whose DNS-subdomain prefix has exactly
253 characters, followed by `/a`, meets every condition the claim states
(prefix a valid DNS subdomain of at most 253 characters, name at most 63
characters matching the name regex, value valid), yet
`ensure_metadata_labels` rejects it with `INVALID_METADATA_LABEL`: the
code bounds the length of the *whole key* by 253 characters. -/
theorem metadata_label_key_length_rejected :
    splitOnceSlash (String.mk (List.replicate 253 'a' ++ ['/', 'a'])).data =
      some (List.replicate 253 'a', ['a']) ∧
    (List.replicate 253 'a').length ≤ 253 ∧
    dnsSubdomainCore (List.replicate 253 'a') = true ∧
    (['a'] : List Char).length ≤ 63 ∧
    labelNameCore ['a'] = true ∧
    isValidLabelValue "v" = true ∧
    ensureMetadataLabels
      (some [(PyObj.pstr (String.mk (List.replicate 253 'a' ++ ['/', 'a'])), PyObj.pstr "v")]) =
      Except.error SandboxErrorCode.INVALID_METADATA_LABEL :=
  ⟨by decide, by decide, by decide, by decide, by decide, by decide, by rfl⟩

/-- **C4 (amended)**: `ensure_metadata_labels` accepts a metadata mapping
if and only if every key and value is a string, every key is at most 253
characters *in total* and has the form `[prefix/]name` with the optional
prefix a valid DNS subdomain and the name at most 63 characters matching
`^[A-Za-z0-9]([-A-Za-z0-9_.]*[A-Za-z0-9])?$`, and every value is at most
63 characters matching `^([A-Za-z0-9]([-A-Za-z0-9_.]*[A-Za-z0-9])?)?$`,
where the regexes are applied with Python `re.match` semantics (`$` also
matches just before one trailing newline); any other mapping is rejected
with `INVALID_METADATA_LABEL`. -/
theorem ensure_metadata_labels_amended (metadata : Option (List (PyObj × PyObj))) :
    (ensureMetadataLabels metadata = Except.ok () ↔
      ∀ m ∈ metadata.getD [], ∃ ks vs, m.1 = PyObj.pstr ks ∧ m.2 = PyObj.pstr vs ∧
        ks.data.length ≤ 253 ∧
        (match splitOnceSlash ks.data with
         | some (pre, name) =>
             pyAnchoredMatch dnsSubdomainCore pre = true ∧
             name.length ≤ 63 ∧ pyAnchoredMatch labelNameCore name = true
         | none => ks.data.length ≤ 63 ∧ pyAnchoredMatch labelNameCore ks.data = true) ∧
        vs.data.length ≤ 63 ∧ pyAnchoredMatch labelValueCore vs.data = true) ∧
    (ensureMetadataLabels metadata ≠ Except.ok () →
      ensureMetadataLabels metadata = Except.error SandboxErrorCode.INVALID_METADATA_LABEL) := by
  have hvalue : ∀ vs : String, isValidLabelValue vs = true ↔
      (vs.data.length ≤ 63 ∧ pyAnchoredMatch labelValueCore vs.data = true) := by
    intro vs
    unfold isValidLabelValue
    rw [Bool.and_eq_true, decide_eq_true_eq]
  constructor
  · have hpairs : ensureMetadataLabels metadata = Except.ok () ↔
        ∀ m ∈ metadata.getD [], ∃ ks vs, m.1 = PyObj.pstr ks ∧ m.2 = PyObj.pstr vs ∧
          isValidLabelKey ks = true ∧ isValidLabelValue vs = true := by
      unfold ensureMetadataLabels
      cases metadata with
      | none => simp
      | some m =>
          cases m with
          | nil => simp
          | cons hd tl =>
              rw [checkMetadataPairs_ok_iff]
              rfl
    rw [hpairs]
    constructor
    · intro h m hm
      obtain ⟨ks, vs, h1, h2, hk, hv⟩ := h m hm
      exact ⟨ks, vs, h1, h2, ((isValidLabelKey_iff ks).mp hk).1,
        ((isValidLabelKey_iff ks).mp hk).2, (hvalue vs).mp hv⟩
    · intro h m hm
      obtain ⟨ks, vs, h1, h2, h253, hkey, hval⟩ := h m hm
      exact ⟨ks, vs, h1, h2, (isValidLabelKey_iff ks).mpr ⟨h253, hkey⟩,
        (hvalue vs).mpr hval⟩
  · intro h
    cases metadata with
    | none => exact absurd rfl h
    | some m =>
        cases m with
        | nil => exact absurd rfl h
        | cons hd tl =>
            have hred : ensureMetadataLabels (some (hd :: tl)) =
                checkMetadataPairs (hd :: tl) := rfl
            rw [hred] at h ⊢
            rcases checkMetadataPairs_ok_or (hd :: tl) with hok | herr
            · exact absurd hok h
            · exact herr

/-- **C2 counterexample**: the claim quantifies over every non-null
egress image, but with the non-null *empty* image `""` (falsy in Python)
`apply_egress_to_spec` takes its no-op path: no sidecar is appended and
no sysctls are set, so "appends exactly one sidecar" fails. -/
theorem apply_egress_empty_image_counterexample :
    applyEgressToSpec (JVal.jobj []) []
      (some { defaultAction := some "deny",
              egress := some [{ action := "allow", target := "pypi.org" }] })
      (some "") = Except.ok (JVal.jobj [], []) := rfl

/-- **C2 (amended)**: for every non-null network policy and non-null
*non-empty* egress image, `apply_egress_to_spec` appends exactly one
sidecar container named `egress` whose `OPENSANDBOX_EGRESS_RULES`
environment variable is the JSON serialization of the policy with absent
fields omitted and whose security context adds `NET_ADMIN`; the main
sandbox container built with a network policy attached carries
`NET_ADMIN` in its capabilities drop list; and the pod security context's
sysctls contain the three `disable_ipv6` entries with value `"1"`, while
every pre-existing sysctl with a different name keeps its (last-written)
value — collisions resolve last-write-wins. Nothing else in the pod spec
changes. -/
theorem apply_egress_with_policy (p : NetworkPolicy) (im : String) (him : im ≠ "")
    (ps sc : List (String × JVal)) (cs : List JVal)
    (hsc : JVal.dictGet ps "securityContext" = some (JVal.jobj sc) ∨
           (JVal.dictGet ps "securityContext" = none ∧ sc = [])) :
    ∃ merged : List JVal,
      applyEgressToSpec (JVal.jobj ps) cs (some p) (some im) =
        Except.ok
          (JVal.jobj (JVal.dictSet ps "securityContext"
            (JVal.jobj (JVal.dictSet sc "sysctls" (JVal.jarr merged)))),
           cs ++ [buildEgressSidecarContainer im p]) ∧
      JVal.dictGet (JVal.asObj (buildEgressSidecarContainer im p)) "name" =
        some (JVal.jstr "egress") ∧
      JVal.dictGet (JVal.asObj (buildEgressSidecarContainer im p)) "env" =
        some (JVal.jarr [JVal.jobj [("name", JVal.jstr "OPENSANDBOX_EGRESS_RULES"),
          ("value", JVal.jstr (serializeNetworkPolicy p))]]) ∧
      JVal.dictGet (JVal.asObj (buildEgressSidecarContainer im p)) "securityContext" =
        some (JVal.jobj [("capabilities",
          JVal.jobj [("add", JVal.jarr [JVal.jstr "NET_ADMIN"])])]) ∧
      (∀ (imageUri : String) (entrypoint : List String)
         (env lim : List (String × String)),
        JVal.dictGet (JVal.asObj (buildMainContainerDict imageUri entrypoint env lim true))
          "securityContext" =
          some (JVal.jobj [("capabilities",
            JVal.jobj [("drop", JVal.jarr [JVal.jstr "NET_ADMIN"])])])) ∧
      sysctlValueIn merged "net.ipv6.conf.all.disable_ipv6" = some (JVal.jstr "1") ∧
      sysctlValueIn merged "net.ipv6.conf.default.disable_ipv6" = some (JVal.jstr "1") ∧
      sysctlValueIn merged "net.ipv6.conf.lo.disable_ipv6" = some (JVal.jstr "1") ∧
      (∀ n : String,
        n ≠ "net.ipv6.conf.all.disable_ipv6" →
        n ≠ "net.ipv6.conf.default.disable_ipv6" →
        n ≠ "net.ipv6.conf.lo.disable_ipv6" →
        sysctlValueIn merged n =
          lastSysctlValue
            (match JVal.dictGet sc "sysctls" with
             | some (JVal.jarr l) => l
             | _ => []) n) ∧
      (∀ q : NetworkPolicy, q.defaultAction = none →
        JVal.dictGet (JVal.asObj (networkPolicyDump q)) "defaultAction" = none) ∧
      (∀ q : NetworkPolicy, q.egress = none →
        JVal.dictGet (JVal.asObj (networkPolicyDump q)) "egress" = none) := by
  refine ⟨mergeSysctls
      (match JVal.dictGet sc "sysctls" with
       | some (JVal.jarr l) => some l
       | _ => none) buildIpv6DisableSysctls, ?_, rfl, rfl, rfl, ?_, ?_, ?_, ?_, ?_, ?_, ?_⟩
  · rcases hsc with h | ⟨h, hsc0⟩
    · simp only [applyEgressToSpec, if_neg him, h]
    · subst hsc0
      simp only [applyEgressToSpec, if_neg him, h]
      rfl
  · intro imageUri entrypoint env lim
    cases lim with
    | nil => rfl
    | cons a as => rfl
  · exact (mergeSysctls_ipv6_spec _).1
  · exact (mergeSysctls_ipv6_spec _).2.1
  · exact (mergeSysctls_ipv6_spec _).2.2.1
  · intro n h1 h2 h3
    rw [(mergeSysctls_ipv6_spec _).2.2.2 n h1 h2 h3]
    rcases hvv : JVal.dictGet sc "sysctls" with _ | v
    · rfl
    · cases v <;> rfl
  · intro q hq
    cases hegr : q.egress with
    | none => simp [networkPolicyDump, hq, hegr, JVal.asObj, JVal.dictGet]
    | some rules => simp [networkPolicyDump, hq, hegr, JVal.asObj, JVal.dictGet]
  · intro q hegr
    cases hq : q.defaultAction with
    | none => simp [networkPolicyDump, hq, hegr, JVal.asObj, JVal.dictGet]
    | some a => simp [networkPolicyDump, hq, hegr, JVal.asObj, JVal.dictGet]

/-- Witness for C2 at a concrete policy, image, pod spec with one
pre-existing sysctl, and container list. -/
theorem apply_egress_with_policy_witness :
    ∃ merged : List JVal,
      applyEgressToSpec
        (JVal.jobj [("containers", JVal.jarr []),
          ("securityContext", JVal.jobj [("sysctls",
            JVal.jarr [JVal.jobj [("name", JVal.jstr "kernel.shm_rmid_forced"),
                                  ("value", JVal.jstr "0")]])])])
        [JVal.jobj [("name", JVal.jstr "sandbox")]]
        (some { defaultAction := some "deny",
                egress := some [{ action := "allow", target := "pypi.org" }] })
        (some "opensandbox/egress:v1") =
        Except.ok
          (JVal.jobj (JVal.dictSet [("containers", JVal.jarr []),
            ("securityContext", JVal.jobj [("sysctls",
              JVal.jarr [JVal.jobj [("name", JVal.jstr "kernel.shm_rmid_forced"),
                                    ("value", JVal.jstr "0")]])])] "securityContext"
            (JVal.jobj (JVal.dictSet [("sysctls",
              JVal.jarr [JVal.jobj [("name", JVal.jstr "kernel.shm_rmid_forced"),
                                    ("value", JVal.jstr "0")]])] "sysctls" (JVal.jarr merged)))),
           [JVal.jobj [("name", JVal.jstr "sandbox")]] ++
             [buildEgressSidecarContainer "opensandbox/egress:v1"
               { defaultAction := some "deny",
                 egress := some [{ action := "allow", target := "pypi.org" }] }]) ∧
      JVal.dictGet (JVal.asObj (buildEgressSidecarContainer "opensandbox/egress:v1"
        { defaultAction := some "deny",
          egress := some [{ action := "allow", target := "pypi.org" }] })) "name" =
        some (JVal.jstr "egress") ∧
      JVal.dictGet (JVal.asObj (buildEgressSidecarContainer "opensandbox/egress:v1"
        { defaultAction := some "deny",
          egress := some [{ action := "allow", target := "pypi.org" }] })) "env" =
        some (JVal.jarr [JVal.jobj [("name", JVal.jstr "OPENSANDBOX_EGRESS_RULES"),
          ("value", JVal.jstr (serializeNetworkPolicy
            { defaultAction := some "deny",
              egress := some [{ action := "allow", target := "pypi.org" }] }))]]) ∧
      JVal.dictGet (JVal.asObj (buildEgressSidecarContainer "opensandbox/egress:v1"
        { defaultAction := some "deny",
          egress := some [{ action := "allow", target := "pypi.org" }] })) "securityContext" =
        some (JVal.jobj [("capabilities",
          JVal.jobj [("add", JVal.jarr [JVal.jstr "NET_ADMIN"])])]) ∧
      (∀ (imageUri : String) (entrypoint : List String)
         (env lim : List (String × String)),
        JVal.dictGet (JVal.asObj (buildMainContainerDict imageUri entrypoint env lim true))
          "securityContext" =
          some (JVal.jobj [("capabilities",
            JVal.jobj [("drop", JVal.jarr [JVal.jstr "NET_ADMIN"])])])) ∧
      sysctlValueIn merged "net.ipv6.conf.all.disable_ipv6" = some (JVal.jstr "1") ∧
      sysctlValueIn merged "net.ipv6.conf.default.disable_ipv6" = some (JVal.jstr "1") ∧
      sysctlValueIn merged "net.ipv6.conf.lo.disable_ipv6" = some (JVal.jstr "1") ∧
      (∀ n : String,
        n ≠ "net.ipv6.conf.all.disable_ipv6" →
        n ≠ "net.ipv6.conf.default.disable_ipv6" →
        n ≠ "net.ipv6.conf.lo.disable_ipv6" →
        sysctlValueIn merged n =
          lastSysctlValue
            (match JVal.dictGet [("sysctls",
              JVal.jarr [JVal.jobj [("name", JVal.jstr "kernel.shm_rmid_forced"),
                                    ("value", JVal.jstr "0")]])] "sysctls" with
             | some (JVal.jarr l) => l
             | _ => []) n) ∧
      (∀ q : NetworkPolicy, q.defaultAction = none →
        JVal.dictGet (JVal.asObj (networkPolicyDump q)) "defaultAction" = none) ∧
      (∀ q : NetworkPolicy, q.egress = none →
        JVal.dictGet (JVal.asObj (networkPolicyDump q)) "egress" = none) :=
  apply_egress_with_policy
    { defaultAction := some "deny",
      egress := some [{ action := "allow", target := "pypi.org" }] }
    "opensandbox/egress:v1" (by decide)
    [("containers", JVal.jarr []),
     ("securityContext", JVal.jobj [("sysctls",
       JVal.jarr [JVal.jobj [("name", JVal.jstr "kernel.shm_rmid_forced"),
                             ("value", JVal.jstr "0")]])])]
    [("sysctls", JVal.jarr [JVal.jobj [("name", JVal.jstr "kernel.shm_rmid_forced"),
                                       ("value", JVal.jstr "0")]])]
    [JVal.jobj [("name", JVal.jstr "sandbox")]]
    (Or.inl rfl)

/-- **C6 counterexample**: the claim says every leaf present in `M` keeps
`M`'s value in the merge, but a `null` leaf in the runtime manifest does
not override the template: with `T = {"a": 1}` and `M = {"a": null}` the
merged manifest holds `1`, not `M`'s `null`. -/
theorem merge_null_override_counterexample :
    JVal.getPath (JVal.jobj [("a", JVal.jnull)]) ["a"] = some JVal.jnull ∧
    JVal.getPath (JVal.jobj (mergeWithRuntimeValues (some [("a", JVal.jnat 1)])
      [("a", JVal.jnull)])) ["a"] = some (JVal.jnat 1) := by
  constructor
  · rfl
  · simp [mergeWithRuntimeValues, getBaseTemplate, deepMerge, JVal.getPath, JVal.dictGet]

/-- **C6 (amended)**: for every loaded base template `T` and runtime
manifest `M` (whose nested objects, coming from Python dicts, have
distinct keys), `merge_with_runtime_values(M)`:
(1) gives every *non-null*, non-dict leaf of `M` `M`'s value;
(2) preserves every non-dict leaf of `T` at a path at which `M` holds
nothing or `null` and along whose proper prefixes `M` holds only dicts,
`null`, or nothing;
(3) replaces lists from `T` by lists from `M`;
(4) merges nested dicts recursively.
The stored base template is left unmodified (the embedding is pure, so
this holds by construction). A `null` leaf of `M` never overrides, and a
non-dict value of `M` at a prefix discards `T`'s subtree there. -/
theorem merge_with_runtime_values_amended :
    (∀ (template : Option (List (String × JVal))) (M : List (String × JVal))
       (p : List String) (v : JVal),
       jvalWF (JVal.jobj M) = true →
       JVal.getPath (JVal.jobj M) p = some v →
       (match v with | JVal.jobj _ => False | JVal.jnull => False | _ => True) →
       JVal.getPath (JVal.jobj (mergeWithRuntimeValues template M)) p = some v) ∧
    (∀ (template : Option (List (String × JVal))) (M : List (String × JVal))
       (p : List String) (v : JVal),
       jvalWF (JVal.jobj M) = true →
       JVal.getPath (JVal.jobj (getBaseTemplate template)) p = some v →
       (match v with | JVal.jobj _ => False | _ => True) →
       (∀ i : Nat, 0 < i → i < p.length →
         (match JVal.getPath (JVal.jobj M) (p.take i) with
          | none => True
          | some JVal.jnull => True
          | some (JVal.jobj _) => True
          | some _ => False)) →
       (JVal.getPath (JVal.jobj M) p = none ∨
        JVal.getPath (JVal.jobj M) p = some JVal.jnull) →
       JVal.getPath (JVal.jobj (mergeWithRuntimeValues template M)) p = some v) ∧
    (∀ (template : Option (List (String × JVal))) (M : List (String × JVal))
       (k : String) (l : List JVal),
       jvalWF (JVal.jobj M) = true →
       JVal.dictGet M k = some (JVal.jarr l) →
       JVal.dictGet (mergeWithRuntimeValues template M) k = some (JVal.jarr l)) ∧
    (∀ (template : Option (List (String × JVal))) (M : List (String × JVal))
       (k : String) (bd vd : List (String × JVal)),
       jvalWF (JVal.jobj M) = true →
       JVal.dictGet (getBaseTemplate template) k = some (JVal.jobj bd) →
       JVal.dictGet M k = some (JVal.jobj vd) →
       JVal.dictGet (mergeWithRuntimeValues template M) k =
         some (JVal.jobj (deepMerge bd vd))) := by
  refine ⟨?_, ?_, ?_, ?_⟩
  · intro template M p v hwf hget hv
    cases hbase : getBaseTemplate template with
    | nil =>
        unfold mergeWithRuntimeValues
        rw [hbase]
        simpa using hget
    | cons b bs =>
        unfold mergeWithRuntimeValues
        rw [hbase]
        exact deepMerge_getPath_override p M (b :: bs) v hwf hget hv
  · intro template M p v hwf hget hv hpre hp
    cases hbase : getBaseTemplate template with
    | nil =>
        exfalso
        rw [hbase] at hget
        cases p with
        | nil =>
            have hvt : JVal.jobj [] = v := by simpa [JVal.getPath] using hget
            rw [← hvt] at hv
            exact hv.elim
        | cons kx rest => simp [JVal.getPath, JVal.dictGet] at hget
    | cons b bs =>
        rw [hbase] at hget
        unfold mergeWithRuntimeValues
        rw [hbase]
        exact deepMerge_getPath_base p (b :: bs) M v hwf hget hv hpre hp
  · intro template M k l hwf hm
    obtain ⟨hnd, -⟩ := jvalWF_obj_parts M hwf
    cases hbase : getBaseTemplate template with
    | nil =>
        unfold mergeWithRuntimeValues
        rw [hbase]
        exact hm
    | cons b bs =>
        unfold mergeWithRuntimeValues
        rw [hbase]
        rw [deepMerge_dictGet M (b :: bs) k hnd, hm]
  · intro template M k bd vd hwf hT hm
    obtain ⟨hnd, -⟩ := jvalWF_obj_parts M hwf
    cases hbase : getBaseTemplate template with
    | nil =>
        rw [hbase] at hT
        cases hT
    | cons b bs =>
        rw [hbase] at hT
        unfold mergeWithRuntimeValues
        rw [hbase]
        rw [deepMerge_dictGet M (b :: bs) k hnd, hm, hT]

/-- Witness for C6 at the spec's template-merge scenario: base
`{metadata: {annotations: {a: "1", b: "2"}}, spec: {template: {spec:
{tolerations: [{key: "a"}]}}}}` and runtime `{metadata: {annotations:
{b: "3", c: "4"}}, spec: {replicas: 1, template: {spec: {tolerations:
[{key: "b"}]}}}}`: runtime leaf `b = "3"` wins, template-only leaf
`a = "1"` survives, the tolerations list is replaced wholesale, and
`metadata` is merged recursively. -/
theorem merge_with_runtime_values_amended_witness :
    JVal.getPath (JVal.jobj (mergeWithRuntimeValues
      (some [("metadata", JVal.jobj [("annotations",
               JVal.jobj [("a", JVal.jstr "1"), ("b", JVal.jstr "2")])]),
             ("spec", JVal.jobj [("template", JVal.jobj [("spec",
               JVal.jobj [("tolerations",
                 JVal.jarr [JVal.jobj [("key", JVal.jstr "a")]])])])])])
      [("metadata", JVal.jobj [("annotations",
          JVal.jobj [("b", JVal.jstr "3"), ("c", JVal.jstr "4")])]),
       ("spec", JVal.jobj [("replicas", JVal.jnat 1), ("template", JVal.jobj [("spec",
          JVal.jobj [("tolerations",
            JVal.jarr [JVal.jobj [("key", JVal.jstr "b")]])])])])]))
      ["metadata", "annotations", "b"] = some (JVal.jstr "3") ∧
    JVal.getPath (JVal.jobj (mergeWithRuntimeValues
      (some [("metadata", JVal.jobj [("annotations",
               JVal.jobj [("a", JVal.jstr "1"), ("b", JVal.jstr "2")])]),
             ("spec", JVal.jobj [("template", JVal.jobj [("spec",
               JVal.jobj [("tolerations",
                 JVal.jarr [JVal.jobj [("key", JVal.jstr "a")]])])])])])
      [("metadata", JVal.jobj [("annotations",
          JVal.jobj [("b", JVal.jstr "3"), ("c", JVal.jstr "4")])]),
       ("spec", JVal.jobj [("replicas", JVal.jnat 1), ("template", JVal.jobj [("spec",
          JVal.jobj [("tolerations",
            JVal.jarr [JVal.jobj [("key", JVal.jstr "b")]])])])])]))
      ["metadata", "annotations", "a"] = some (JVal.jstr "1") ∧
    JVal.getPath (JVal.jobj (mergeWithRuntimeValues
      (some [("metadata", JVal.jobj [("annotations",
               JVal.jobj [("a", JVal.jstr "1"), ("b", JVal.jstr "2")])]),
             ("spec", JVal.jobj [("template", JVal.jobj [("spec",
               JVal.jobj [("tolerations",
                 JVal.jarr [JVal.jobj [("key", JVal.jstr "a")]])])])])])
      [("metadata", JVal.jobj [("annotations",
          JVal.jobj [("b", JVal.jstr "3"), ("c", JVal.jstr "4")])]),
       ("spec", JVal.jobj [("replicas", JVal.jnat 1), ("template", JVal.jobj [("spec",
          JVal.jobj [("tolerations",
            JVal.jarr [JVal.jobj [("key", JVal.jstr "b")]])])])])]))
      ["spec", "template", "spec", "tolerations"] =
      some (JVal.jarr [JVal.jobj [("key", JVal.jstr "b")]]) ∧
    JVal.dictGet (mergeWithRuntimeValues (some [("l", JVal.jarr [JVal.jnat 1])])
      [("l", JVal.jarr [JVal.jnat 2])]) "l" = some (JVal.jarr [JVal.jnat 2]) ∧
    JVal.dictGet (mergeWithRuntimeValues
      (some [("metadata", JVal.jobj [("annotations",
               JVal.jobj [("a", JVal.jstr "1"), ("b", JVal.jstr "2")])]),
             ("spec", JVal.jobj [("template", JVal.jobj [("spec",
               JVal.jobj [("tolerations",
                 JVal.jarr [JVal.jobj [("key", JVal.jstr "a")]])])])])])
      [("metadata", JVal.jobj [("annotations",
          JVal.jobj [("b", JVal.jstr "3"), ("c", JVal.jstr "4")])]),
       ("spec", JVal.jobj [("replicas", JVal.jnat 1), ("template", JVal.jobj [("spec",
          JVal.jobj [("tolerations",
            JVal.jarr [JVal.jobj [("key", JVal.jstr "b")]])])])])]) "metadata" =
      some (JVal.jobj (deepMerge
        [("annotations", JVal.jobj [("a", JVal.jstr "1"), ("b", JVal.jstr "2")])]
        [("annotations", JVal.jobj [("b", JVal.jstr "3"), ("c", JVal.jstr "4")])])) :=
  ⟨merge_with_runtime_values_amended.1 _ _ ["metadata", "annotations", "b"]
      (JVal.jstr "3") (by decide) rfl True.intro,
   merge_with_runtime_values_amended.2.1 _ _ ["metadata", "annotations", "a"]
      (JVal.jstr "1") (by decide) rfl True.intro
      (by
        intro i h1 h2
        simp only [List.length_cons, List.length_nil] at h2
        interval_cases i <;> trivial)
      (Or.inl rfl),
   merge_with_runtime_values_amended.1 _ _ ["spec", "template", "spec", "tolerations"]
      (JVal.jarr [JVal.jobj [("key", JVal.jstr "b")]]) (by decide) rfl True.intro,
   merge_with_runtime_values_amended.2.2.1 _ _ "l" [JVal.jnat 2] (by decide) rfl,
   merge_with_runtime_values_amended.2.2.2 _ _ "metadata"
      [("annotations", JVal.jobj [("a", JVal.jstr "1"), ("b", JVal.jstr "2")])]
      [("annotations", JVal.jobj [("b", JVal.jstr "3"), ("c", JVal.jstr "4")])]
      (by decide) rfl rfl⟩

end OpenSandbox
